import Mathlib

/-!
# One-shot solver (`SU2_CFD/src/solvers/COneShotSolver.cpp`)

A shallow embedding of the state-snapshot, parameter-estimation, merit-function and
constraint-direction routines of `COneShotSolver`.

Conventions of the embedding

* `su2double` is an arbitrary linearly ordered field `α` (exact arithmetic).  The definitions
  are executable at `α = ℚ`; the square root of `CalculateRhoTheta` is an argument, and the
  statements that need its properties take `α = ℝ` and `Real.sqrt`.
* A per-point, per-variable buffer is a total map `Nat → Nat → α`; the loops of the source only
  touch the indices below their bounds (`nPoint`, `nPointDomain`, `nVar`, `nConstr`).
* A C++ `for (i = 0; i < n; i++) body` loop is `forLoop n body`.
* `SU2_MPI::Allreduce(.., MPI_SUM, ..)` is an argument `R : α → α` taking the local value to the
  reduced one; the build without MPI is `R = id`.
* Exact arithmetic has no value for a division by zero and no rounding.  Where a property
  depends on them the routine is embedded a second time: over `XDouble α`, the numbers with
  `+inf`, `-inf` and NaN (`CalculateAlphaBetaX`, `CalculateGamma`), or with every arithmetic
  result rounded by a function `fl` (`LoadStepSolutionFl`, `MultiplyConstrDerivativeFl`), for
  which `binary64` is the rounding of IEEE double precision and `fl = id` is exact arithmetic.
-/

namespace OneShot

/-! ## Loops -/

/-- The loop `for (i = 0; i < n; i++) s = body i s`, iterations run in increasing order. -/
def forLoop {σ : Type} (n : Nat) (body : Nat → σ → σ) (s : σ) : σ :=
  match n with
  | 0 => s
  | k + 1 => body k (forLoop k body s)

/-- Write `val` at entry `(i, j)` of a two-index buffer. -/
def set2 {α : Type} (f : Nat → Nat → α) (i j : Nat) (val : α) : Nat → Nat → α :=
  fun p q => if p = i ∧ q = j then val else f p q

/-- Overwrite the whole row `i` of a two-index buffer. -/
def setRow {α : Type} (f : Nat → Nat → α) (i : Nat) (row : Nat → α) : Nat → Nat → α :=
  fun p => if p = i then row else f p

/-! ## Numbers with infinities and NaN -/

/-- A value of `su2double` with the non-finite values of its arithmetic: a finite number, `+inf`,
`-inf` or NaN.  Finite results are exact (no rounding, no overflow) and zero carries no sign: a
division of a non-zero number by zero gives the infinity of the sign of the numerator. -/
inductive XDouble (α : Type) where
  | fin (x : α)
  | posInf
  | negInf
  | nan

namespace XDouble

variable {α : Type} [LinearOrderedField α]

/-- The comparison `a < b`: false as soon as one side is NaN. -/
def lt : XDouble α → XDouble α → Bool
  | fin x, fin y => decide (x < y)
  | fin _, posInf => true
  | negInf, fin _ => true
  | negInf, posInf => true
  | _, _ => false

/-- The function `std::min(a, b)`, that is `(b < a) ? b : a`. -/
def stdMin (a b : XDouble α) : XDouble α := if lt b a then b else a

/-- The function `std::max(a, b)`, that is `(a < b) ? b : a`. -/
def stdMax (a b : XDouble α) : XDouble α := if lt a b then b else a

/-- Subtraction: `inf - inf` of equal signs and every operation on NaN give NaN. -/
def sub : XDouble α → XDouble α → XDouble α
  | fin x, fin y => fin (x - y)
  | fin _, posInf => negInf
  | fin _, negInf => posInf
  | posInf, fin _ => posInf
  | posInf, negInf => posInf
  | negInf, fin _ => negInf
  | negInf, posInf => negInf
  | _, _ => nan

/-- Multiplication: `0 * inf` and every operation on NaN give NaN. -/
def mul : XDouble α → XDouble α → XDouble α
  | fin x, fin y => fin (x * y)
  | fin x, posInf => if 0 < x then posInf else if x < 0 then negInf else nan
  | fin x, negInf => if 0 < x then negInf else if x < 0 then posInf else nan
  | posInf, fin y => if 0 < y then posInf else if y < 0 then negInf else nan
  | negInf, fin y => if 0 < y then negInf else if y < 0 then posInf else nan
  | posInf, posInf => posInf
  | negInf, negInf => posInf
  | posInf, negInf => negInf
  | negInf, posInf => negInf
  | _, _ => nan

/-- Division: `x / 0` is `+inf` or `-inf` by the sign of `x`, `0 / 0`, `inf / inf` and every
operation on NaN give NaN, a finite number over an infinity gives `0`. -/
def div : XDouble α → XDouble α → XDouble α
  | fin x, fin y =>
      if y = 0 then (if 0 < x then posInf else if x < 0 then negInf else nan) else fin (x / y)
  | fin _, posInf => fin 0
  | fin _, negInf => fin 0
  | posInf, fin y => if y < 0 then negInf else posInf
  | negInf, fin y => if y < 0 then posInf else negInf
  | _, _ => nan

instance : Sub (XDouble α) := ⟨sub⟩

instance : Mul (XDouble α) := ⟨mul⟩

instance : Div (XDouble α) := ⟨div⟩

instance : Min (XDouble α) := ⟨stdMin⟩

instance : Max (XDouble α) := ⟨stdMax⟩

instance : OfScientific (XDouble α) := ⟨fun m sgn e => fin (OfScientific.ofScientific m sgn e)⟩

/-- The value is a finite number of the interval `[lo, hi]`. -/
def within (lo hi : α) : XDouble α → Prop
  | fin x => lo ≤ x ∧ x ≤ hi
  | _ => False

end XDouble

/-! ## Rounding to double precision -/

/-- Rounding of a rational to the nearest integer, a tie going to the even one. -/
def roundHalfEven (y : ℚ) : ℤ :=
  if y - ⌊y⌋ < 1 / 2 then ⌊y⌋
  else if 1 / 2 < y - ⌊y⌋ then ⌊y⌋ + 1
  else if ⌊y⌋ % 2 = 0 then ⌊y⌋ else ⌊y⌋ + 1

/-- The spacing of the double-precision numbers around `x`: `2 ^ (e - 52)` where
`2 ^ e ≤ |x| < 2 ^ (e + 1)`, and the subnormal spacing `2 ^ (-1074)` below `2 ^ (-1022)`. -/
def ulp64 (x : ℚ) : ℚ := 2 ^ (max (Int.log 2 |x|) (-1022) - 52)

/-- The rounding of IEEE double precision, to nearest with ties to even: the multiple of the
spacing nearest to `x`.  Overflow to infinity (beyond `2 ^ 1024`) is not part of it. -/
def binary64 (x : ℚ) : ℚ := roundHalfEven (x / ulp64 x) * ulp64 x

/-! ## Data model -/

/-- Modelled from the spec: the node container `CVariable` (its header is not part of the
sources).  It holds, per point and variable, the current solution and the snapshot slots Store,
Save, Delta and DeltaStore, and the adjoint-input slot written by `SetAdjointSolution`. -/
structure CVariable (α : Type) where
  Solution : Nat → Nat → α
  Solution_Store : Nat → Nat → α
  Solution_Save : Nat → Nat → α
  Solution_Delta : Nat → Nat → α
  Solution_DeltaStore : Nat → Nat → α
  AdjointSolution : Nat → Nat → α

namespace CVariable

variable {α : Type}

/-- Modelled from the spec: `GetSolution(iPoint, iVar)`. -/
def GetSolution (x : CVariable α) (iPoint iVar : Nat) : α := x.Solution iPoint iVar

/-- Modelled from the spec: `GetSolution_Store(iPoint, iVar)`. -/
def GetSolution_Store (x : CVariable α) (iPoint iVar : Nat) : α := x.Solution_Store iPoint iVar

/-- Modelled from the spec: `GetSolution_Save(iPoint, iVar)`. -/
def GetSolution_Save (x : CVariable α) (iPoint iVar : Nat) : α := x.Solution_Save iPoint iVar

/-- Modelled from the spec: `GetSolution_Delta(iPoint, iVar)`. -/
def GetSolution_Delta (x : CVariable α) (iPoint iVar : Nat) : α := x.Solution_Delta iPoint iVar

/-- Modelled from the spec: `GetSolution_DeltaStore(iPoint, iVar)`. -/
def GetSolution_DeltaStore (x : CVariable α) (iPoint iVar : Nat) : α :=
  x.Solution_DeltaStore iPoint iVar

/-- Modelled from the spec: `SetSolution(iPoint, iVar, val)`. -/
def SetSolution (x : CVariable α) (iPoint iVar : Nat) (val : α) : CVariable α :=
  { x with Solution := set2 x.Solution iPoint iVar val }

/-- Modelled from the spec: `SetSolution(iPoint, row)`, the whole variable vector of a point. -/
def SetSolutionRow (x : CVariable α) (iPoint : Nat) (row : Nat → α) : CVariable α :=
  { x with Solution := setRow x.Solution iPoint row }

/-- Modelled from the spec: `SetSolution_Store(iPoint)` copies the current solution of the point
into its Store slot. -/
def SetSolution_Store (x : CVariable α) (iPoint : Nat) : CVariable α :=
  { x with Solution_Store := setRow x.Solution_Store iPoint (x.Solution iPoint) }

/-- Modelled from the spec: `SetSolution_Delta(iPoint, iVar, val)`. -/
def SetSolution_Delta (x : CVariable α) (iPoint iVar : Nat) (val : α) : CVariable α :=
  { x with Solution_Delta := set2 x.Solution_Delta iPoint iVar val }

/-- Modelled from the spec: `SetSolution_DeltaStore(iPoint, iVar, val)`. -/
def SetSolution_DeltaStore (x : CVariable α) (iPoint iVar : Nat) (val : α) : CVariable α :=
  { x with Solution_DeltaStore := set2 x.Solution_DeltaStore iPoint iVar val }

/-- Modelled from the spec: `SetAdjointSolution(iPoint, row)` writes the adjoint-input vector of
the point. -/
def SetAdjointSolution (x : CVariable α) (iPoint : Nat) (row : Nat → α) : CVariable α :=
  { x with AdjointSolution := setRow x.AdjointSolution iPoint row }

end CVariable

/-- Modelled from the spec: the part of `CConfig` the solver reads and writes, the penalty weights
alpha and beta, the multiplier scale gamma of each constraint, the number of constraints and the
number of boundary markers. -/
structure CConfig (α : Type) where
  One_Shot_Alpha : α
  One_Shot_Beta : α
  One_Shot_Gamma : Nat → α
  nConstr : Nat
  nMarker_All : Nat

namespace CConfig

variable {α : Type}

/-- Modelled from the spec: `GetOneShotAlpha()`. -/
def GetOneShotAlpha (c : CConfig α) : α := c.One_Shot_Alpha

/-- Modelled from the spec: `GetOneShotBeta()`. -/
def GetOneShotBeta (c : CConfig α) : α := c.One_Shot_Beta

/-- Modelled from the spec: the gamma of the constraint `iConstr`. -/
def GetOneShotGamma (c : CConfig α) (iConstr : Nat) : α := c.One_Shot_Gamma iConstr

/-- Modelled from the spec: `SetOneShotAlpha(val)`. -/
def SetOneShotAlpha (c : CConfig α) (val : α) : CConfig α := { c with One_Shot_Alpha := val }

/-- Modelled from the spec: `SetOneShotBeta(val)`. -/
def SetOneShotBeta (c : CConfig α) (val : α) : CConfig α := { c with One_Shot_Beta := val }

/-- Modelled from the spec: `SetOneShotGamma(val, iConstr)`, the setter of the gamma of one
constraint. -/
def SetOneShotGamma (c : CConfig α) (val : α) (iConstr : Nat) : CConfig α :=
  { c with One_Shot_Gamma := fun j => if j = iConstr then val else c.One_Shot_Gamma j }

/-- A setter without a constraint index that stores its argument as the gamma of every
constraint. -/
def SetOneShotGammaAll (c : CConfig α) (val : α) : CConfig α :=
  { c with One_Shot_Gamma := fun _ => val }

/-- A setter without a constraint index that stores its argument as the gamma of constraint
`0`. -/
def SetOneShotGammaFirst (c : CConfig α) (val : α) : CConfig α := c.SetOneShotGamma val 0

/-- Modelled from the spec: `GetnConstr()`. -/
def GetnConstr (c : CConfig α) : Nat := c.nConstr

/-- Modelled from the spec: `GetnMarker_All()`. -/
def GetnMarker_All (c : CConfig α) : Nat := c.nMarker_All

end CConfig

/-- Modelled from the spec: the part of `CGeometry` the mesh routines touch (its header is not
part of the sources): per point and dimension the coordinates `node[jPoint]->GetCoord()[iDim]`
and their old counterpart, the number of vertices of each marker, and per marker, vertex and
dimension the normal `vertex[iMarker][iVertex]->GetNormal()[iDim]` and its old counterpart. -/
structure CGeometry (α : Type) where
  nVertex : Nat → Nat
  Coord : Nat → Nat → α
  Coord_Old : Nat → Nat → α
  Normal : Nat → Nat → Nat → α
  Normal_Old : Nat → Nat → Nat → α

namespace CGeometry

variable {α : Type}

/-- Modelled from the spec: `node[jPoint]->SetCoord(row)`, all coordinates of a point. -/
def SetCoordRow (g : CGeometry α) (jPoint : Nat) (row : Nat → α) : CGeometry α :=
  { g with Coord := setRow g.Coord jPoint row }

/-- Modelled from the spec: `node[jPoint]->SetCoord(iDim, val)`. -/
def SetCoord (g : CGeometry α) (jPoint iDim : Nat) (val : α) : CGeometry α :=
  { g with Coord := set2 g.Coord jPoint iDim val }

/-- Modelled from the spec: `node[jPoint]->SetCoord_Old(row)`. -/
def SetCoord_Old (g : CGeometry α) (jPoint : Nat) (row : Nat → α) : CGeometry α :=
  { g with Coord_Old := setRow g.Coord_Old jPoint row }

/-- Modelled from the spec: `vertex[iMarker][iVertex]->SetNormal_Old(row)`. -/
def SetNormal_Old (g : CGeometry α) (iMarker iVertex : Nat) (row : Nat → α) : CGeometry α :=
  { g with Normal_Old := fun m w =>
      if m = iMarker ∧ w = iVertex then row else g.Normal_Old m w }

end CGeometry

/-- The members of `COneShotSolver` used by the routines below: the sizes, the four scalars of the
rho/theta estimate, the constraint-direction buffer `DConsVec[iConstr][iPoint][iVar]`, the solver's
own nodes (design state) and the nodes of `direct_solver` (primal state); `nDim` is the number
of space dimensions. -/
structure COneShotSolver (α : Type) where
  nPoint : Nat
  nPointDomain : Nat
  nVar : Nat
  nDim : Nat
  nConstr : Nat
  rho : α
  rho_old : α
  theta : α
  theta_old : α
  DConsVec : Nat → Nat → Nat → α
  nodes : CVariable α
  direct_nodes : CVariable α

namespace COneShotSolver

variable {α : Type}

/-- `COneShotSolver::SetStoreSolution`. -/
def SetStoreSolution (s : COneShotSolver α) : COneShotSolver α :=
  forLoop s.nPoint (fun iPoint t =>
    let t1 := { t with direct_nodes := t.direct_nodes.SetSolution_Store iPoint }
    { t1 with nodes := t1.nodes.SetSolution_Store iPoint }) s

/-- `COneShotSolver::LoadSolution`. -/
def LoadSolution (s : COneShotSolver α) : COneShotSolver α :=
  forLoop s.nPoint (fun iPoint t =>
    let t1 := { t with direct_nodes :=
      t.direct_nodes.SetSolutionRow iPoint (t.direct_nodes.Solution_Store iPoint) }
    { t1 with nodes := t1.nodes.SetSolutionRow iPoint (t1.nodes.Solution_Store iPoint) }) s

/-- `COneShotSolver::LoadStepSolution`. -/
def LoadStepSolution [LinearOrderedField α] (s : COneShotSolver α) (stepsize : α) :
    COneShotSolver α :=
  forLoop s.nPoint (fun iPoint t =>
    forLoop s.nVar (fun iVar t =>
      let dy := t.direct_nodes.GetSolution_Save iPoint iVar
                  - t.direct_nodes.GetSolution_Store iPoint iVar
      let dbary := t.nodes.GetSolution_Save iPoint iVar - t.nodes.GetSolution_Store iPoint iVar
      let t1 := { t with direct_nodes := (t.direct_nodes.SetSolution iPoint iVar
                    (t.direct_nodes.GetSolution_Store iPoint iVar + stepsize * dy)) }
      { t1 with nodes := (t1.nodes.SetSolution iPoint iVar
                    (t1.nodes.GetSolution_Store iPoint iVar + stepsize * dbary)) }) t) s

/-- `COneShotSolver::LoadStepSolution` with every arithmetic result rounded by `fl`. -/
def LoadStepSolutionFl [LinearOrderedField α] (fl : α → α) (s : COneShotSolver α)
    (stepsize : α) : COneShotSolver α :=
  forLoop s.nPoint (fun iPoint t =>
    forLoop s.nVar (fun iVar t =>
      let dy := fl (t.direct_nodes.GetSolution_Save iPoint iVar
                  - t.direct_nodes.GetSolution_Store iPoint iVar)
      let dbary := fl (t.nodes.GetSolution_Save iPoint iVar
                  - t.nodes.GetSolution_Store iPoint iVar)
      let t1 := { t with direct_nodes := (t.direct_nodes.SetSolution iPoint iVar
                    (fl (t.direct_nodes.GetSolution_Store iPoint iVar + fl (stepsize * dy)))) }
      { t1 with nodes := (t1.nodes.SetSolution iPoint iVar
                    (fl (t1.nodes.GetSolution_Store iPoint iVar + fl (stepsize * dbary)))) }) t) s

/-- The three local accumulators of `CalculateRhoTheta`. -/
structure RhoThetaAcc (α : Type) where
  myNormDelta : α
  myNormDeltaNew : α
  myHelper : α

/-- The accumulation loop of `COneShotSolver::CalculateRhoTheta` over the locally-owned points. -/
def CalculateRhoTheta_acc [LinearOrderedField α] (s : COneShotSolver α) : RhoThetaAcc α :=
  forLoop s.nPointDomain (fun iPoint a =>
    forLoop s.nVar (fun iVar a =>
      { myNormDelta := a.myNormDelta
          + s.direct_nodes.GetSolution_DeltaStore iPoint iVar
            * s.direct_nodes.GetSolution_DeltaStore iPoint iVar
        myNormDeltaNew := a.myNormDeltaNew
          + s.direct_nodes.GetSolution_Delta iPoint iVar
            * s.direct_nodes.GetSolution_Delta iPoint iVar
        myHelper := a.myHelper
          + (s.direct_nodes.GetSolution_DeltaStore iPoint iVar * s.nodes.GetSolution_Delta iPoint iVar
             - s.nodes.GetSolution_DeltaStore iPoint iVar
               * s.direct_nodes.GetSolution_Delta iPoint iVar) }) a)
    { myNormDelta := 0.0, myNormDeltaNew := 0.0, myHelper := 0.0 }

/-- `COneShotSolver::CalculateRhoTheta`, with the reduction `R` and the square root `sqrt`. -/
def CalculateRhoTheta [LinearOrderedField α] (R : α → α) (sqrt : α → α) (s : COneShotSolver α) :
    COneShotSolver α :=
  let a := CalculateRhoTheta_acc s
  let normDelta := R a.myNormDelta
  let normDeltaNew := R a.myNormDeltaNew
  let helper := R a.myHelper
  let rho := min (sqrt normDeltaNew / sqrt normDelta) (1.0 - 1.0E-9)
  let theta := min (max (sqrt (|helper| / normDelta)) 1.0E-9) 1.0
  { s with rho := rho, theta := theta, rho_old := rho, theta_old := theta }

/-- `COneShotSolver::CalculateAlphaBeta` in exact arithmetic; the written configuration is
returned.  It agrees with the source where no denominator is zero, that is for `theta ≠ 0` and
`rho ≠ 1`; `CalculateAlphaBetaX` covers the other values. -/
def CalculateAlphaBeta [LinearOrderedField α] (s : COneShotSolver α) (config : CConfig α) :
    CConfig α :=
  let alpha := 2. * s.theta / ((1. - s.rho) * (1. - s.rho))
  let beta := 2. / s.theta
  let alpha := max (min alpha 1.0E9) 1.0E-9
  let beta := max (min beta 1.0E9) 1.0E-9
  (config.SetOneShotAlpha alpha).SetOneShotBeta beta

/-- `COneShotSolver::CalculateAlphaBeta` over the numbers with infinities and NaN; the written
configuration is returned. -/
def CalculateAlphaBetaX [LinearOrderedField α] (s : COneShotSolver (XDouble α))
    (config : CConfig (XDouble α)) : CConfig (XDouble α) :=
  let alpha := 2. * s.theta / ((1. - s.rho) * (1. - s.rho))
  let beta := 2. / s.theta
  let alpha := max (min alpha 1.0E9) 1.0E-9
  let beta := max (min beta 1.0E9) 1.0E-9
  (config.SetOneShotAlpha alpha).SetOneShotBeta beta

/-- `COneShotSolver::CalculateGamma` over the numbers with infinities and NaN; the written
configuration is returned.  The source calls `config->SetOneShotGamma(gamma)` with the value
only; the declaration of that setter is not part of the sources, so it is the argument
`setGamma`. -/
def CalculateGamma [LinearOrderedField α]
    (setGamma : CConfig (XDouble α) → XDouble α → CConfig (XDouble α))
    (s : COneShotSolver (XDouble α)) (config : CConfig (XDouble α))
    (val_bcheck_norm : XDouble α) (_val_constr_func : Nat → XDouble α)
    (_val_lambda : Nat → XDouble α) : CConfig (XDouble α) :=
  forLoop s.nConstr (fun _iConstr c =>
    let gamma := 1.01 / val_bcheck_norm
    let gamma := max (min gamma 1.0E9) 1.0E-9
    setGamma c gamma) config

/-- `COneShotSolver::CalculateLagrangian`, with the reduction `R`. -/
def CalculateLagrangian [LinearOrderedField α] (R : α → α) (s : COneShotSolver α)
    (config : CConfig α) : α :=
  let myLagrangian : α := 0.0
  let helper : α := 0.0
  let helper := forLoop s.nPointDomain (fun iPoint h =>
    forLoop s.nVar (fun iVar h =>
      h + s.direct_nodes.GetSolution_Delta iPoint iVar
          * s.direct_nodes.GetSolution_Delta iPoint iVar) h) helper
  let myLagrangian := myLagrangian + helper * (config.GetOneShotAlpha / 2.)
  let helper : α := 0.0
  let helper := forLoop s.nPointDomain (fun iPoint h =>
    forLoop s.nVar (fun iVar h =>
      h + s.nodes.GetSolution_Delta iPoint iVar * s.nodes.GetSolution_Delta iPoint iVar) h) helper
  let myLagrangian := myLagrangian + helper * (config.GetOneShotBeta / 2.)
  let helper : α := 0.0
  let helper := forLoop s.nPointDomain (fun iPoint h =>
    forLoop s.nVar (fun iVar h =>
      h + s.direct_nodes.GetSolution_Delta iPoint iVar
          * s.nodes.GetSolution_Store iPoint iVar) h) helper
  let myLagrangian := myLagrangian + helper
  R myLagrangian

/-- `COneShotSolver::SetAdjoint_OutputUpdate`. -/
def SetAdjoint_OutputUpdate (s : COneShotSolver α) : COneShotSolver α :=
  forLoop s.nPoint (fun iPoint t =>
    { t with direct_nodes :=
      t.direct_nodes.SetAdjointSolution iPoint (t.direct_nodes.Solution_Delta iPoint) }) s

/-- `COneShotSolver::SetConstrDerivative`. -/
def SetConstrDerivative (s : COneShotSolver α) (iConstr : Nat) : COneShotSolver α :=
  forLoop s.nPointDomain (fun iPoint t =>
    forLoop s.nVar (fun iVar t =>
      { t with DConsVec := fun c p v =>
          if c = iConstr ∧ p = iPoint ∧ v = iVar then t.nodes.GetSolution iPoint iVar
          else t.DConsVec c p v }) t) s

/-- `COneShotSolver::MultiplyConstrDerivative`, with the reduction `R`. -/
def MultiplyConstrDerivative [LinearOrderedField α] (R : α → α) (s : COneShotSolver α)
    (iConstr jConstr : Nat) : α :=
  let myProduct : α := forLoop s.nPointDomain (fun iPoint a =>
    forLoop s.nVar (fun iVar a =>
      a + s.DConsVec iConstr iPoint iVar * s.DConsVec jConstr iPoint iVar) a) 0.0
  R myProduct

/-- `COneShotSolver::MultiplyConstrDerivative` with every arithmetic result rounded by `fl`, and
the reduction `R`. -/
def MultiplyConstrDerivativeFl [LinearOrderedField α] (fl R : α → α) (s : COneShotSolver α)
    (iConstr jConstr : Nat) : α :=
  let myProduct : α := forLoop s.nPointDomain (fun iPoint a =>
    forLoop s.nVar (fun iVar a =>
      fl (a + fl (s.DConsVec iConstr iPoint iVar * s.DConsVec jConstr iPoint iVar))) a) 0.0
  R myProduct

/-- `COneShotSolver::SetSolutionDelta`. -/
def SetSolutionDelta [LinearOrderedField α] (s : COneShotSolver α) : COneShotSolver α :=
  forLoop s.nPoint (fun iPoint t =>
    forLoop s.nVar (fun iVar t =>
      let res_y := t.direct_nodes.GetSolution iPoint iVar
                     - t.direct_nodes.GetSolution_Store iPoint iVar
      let res_bary := t.nodes.GetSolution iPoint iVar - t.nodes.GetSolution_Store iPoint iVar
      let t1 := { t with direct_nodes := t.direct_nodes.SetSolution_Delta iPoint iVar res_y }
      { t1 with nodes := t1.nodes.SetSolution_Delta iPoint iVar res_bary }) t) s

/-- `COneShotSolver::SetSaveSolutionDelta`. -/
def SetSaveSolutionDelta [LinearOrderedField α] (s : COneShotSolver α) : COneShotSolver α :=
  forLoop s.nPoint (fun iPoint t =>
    forLoop s.nVar (fun iVar t =>
      let res_y := t.direct_nodes.GetSolution iPoint iVar
                     - t.direct_nodes.GetSolution_Save iPoint iVar
      let res_bary := t.nodes.GetSolution iPoint iVar - t.nodes.GetSolution_Save iPoint iVar
      let t1 := { t with direct_nodes := t.direct_nodes.SetSolution_Delta iPoint iVar res_y }
      { t1 with nodes := t1.nodes.SetSolution_Delta iPoint iVar res_bary }) t) s

/-- `COneShotSolver::SetStoreSolutionDelta`. -/
def SetStoreSolutionDelta (s : COneShotSolver α) : COneShotSolver α :=
  forLoop s.nPoint (fun iPoint t =>
    forLoop s.nVar (fun iVar t =>
      let t1 := { t with direct_nodes := (t.direct_nodes.SetSolution_DeltaStore iPoint iVar
                    (t.direct_nodes.GetSolution_Delta iPoint iVar)) }
      { t1 with nodes := (t1.nodes.SetSolution_DeltaStore iPoint iVar
                    (t1.nodes.GetSolution_Delta iPoint iVar)) }) t) s

/-- `COneShotSolver::SetMeshPointsOld`; the written geometry is returned. -/
def SetMeshPointsOld (s : COneShotSolver α) (config : CConfig α) (geometry : CGeometry α) :
    CGeometry α :=
  let geometry := forLoop s.nPoint (fun jPoint g => g.SetCoord_Old jPoint (g.Coord jPoint))
    geometry
  forLoop config.GetnMarker_All (fun iMarker g =>
    forLoop (g.nVertex iMarker) (fun iVertex g =>
      g.SetNormal_Old iMarker iVertex (g.Normal iMarker iVertex)) g) geometry

/-- `COneShotSolver::LoadMeshPointsOld`; the written geometry is returned. -/
def LoadMeshPointsOld (s : COneShotSolver α) (_config : CConfig α) (geometry : CGeometry α) :
    CGeometry α :=
  forLoop s.nPoint (fun jPoint g => g.SetCoordRow jPoint (g.Coord_Old jPoint)) geometry

/-- `COneShotSolver::LoadMeshPointsStep`; the written geometry is returned. -/
def LoadMeshPointsStep [LinearOrderedField α] (s : COneShotSolver α) (_config : CConfig α)
    (geometry : CGeometry α) (stepsize : α) : CGeometry α :=
  forLoop s.nPoint (fun jPoint g =>
    forLoop s.nDim (fun iDim g =>
      g.SetCoord jPoint iDim (g.Coord_Old jPoint iDim + stepsize * g.Coord jPoint iDim)) g)
    geometry

/-- The constructor `COneShotSolver::COneShotSolver(geometry, config, direct_solver, ..)`, for the
members kept in the embedding: `base` is the solver as the base-class constructor leaves it, with
arbitrary content in the newly allocated `DConsVec`. -/
def ctor [LinearOrderedField α] (base : COneShotSolver α) (config : CConfig α) :
    COneShotSolver α :=
  let s := { base with rho := 0.0, rho_old := 1.0, theta := 1.0, theta_old := 1.0
                       nConstr := config.GetnConstr }
  forLoop s.nConstr (fun iConstr t =>
    forLoop s.nPointDomain (fun iPoint t =>
      forLoop s.nVar (fun iVar t =>
        { t with DConsVec := fun c p v =>
            if c = iConstr ∧ p = iPoint ∧ v = iVar then 0.0 else t.DConsVec c p v }) t) t) s

end COneShotSolver

/-! ## Reference quantities of the specification -/

/-- The sum of `f p v` over the points `p < n` and the variables `v < m`. -/
def sumPV {α : Type} [LinearOrderedField α] (n m : Nat) (f : Nat → Nat → α) : α :=
  ∑ p in Finset.range n, ∑ v in Finset.range m, f p v

/-- The specification's `clamp(x, lo, hi)`. -/
def clamp {α : Type} [LinearOrderedField α] (x lo hi : α) : α := max lo (min x hi)

/-- The specification's `normDeltaOld`: the squared norm of the primal DeltaStore over the
locally-owned points. -/
def normDeltaOld {α : Type} [LinearOrderedField α] (s : COneShotSolver α) : α :=
  sumPV s.nPointDomain s.nVar (fun p v => s.direct_nodes.Solution_DeltaStore p v ^ 2)

/-- The specification's `normDeltaNew`: the squared norm of the primal Delta over the
locally-owned points. -/
def normDeltaNew {α : Type} [LinearOrderedField α] (s : COneShotSolver α) : α :=
  sumPV s.nPointDomain s.nVar (fun p v => s.direct_nodes.Solution_Delta p v ^ 2)

/-- The specification's cross term `helper` of the rho/theta estimate. -/
def helperSum {α : Type} [LinearOrderedField α] (s : COneShotSolver α) : α :=
  sumPV s.nPointDomain s.nVar (fun p v =>
    s.direct_nodes.Solution_DeltaStore p v * s.nodes.Solution_Delta p v
      - s.nodes.Solution_DeltaStore p v * s.direct_nodes.Solution_Delta p v)

/-- The specification's `termPrimal` of the Lagrangian (local value). -/
def termPrimal {α : Type} [LinearOrderedField α] (s : COneShotSolver α) (config : CConfig α) : α :=
  (config.One_Shot_Alpha / 2)
    * sumPV s.nPointDomain s.nVar (fun p v => s.direct_nodes.Solution_Delta p v ^ 2)

/-- The specification's `termDesign` of the Lagrangian (local value). -/
def termDesign {α : Type} [LinearOrderedField α] (s : COneShotSolver α) (config : CConfig α) : α :=
  (config.One_Shot_Beta / 2)
    * sumPV s.nPointDomain s.nVar (fun p v => s.nodes.Solution_Delta p v ^ 2)

/-- The specification's `termCross` of the Lagrangian (local value). -/
def termCross {α : Type} [LinearOrderedField α] (s : COneShotSolver α) : α :=
  sumPV s.nPointDomain s.nVar (fun p v =>
    s.direct_nodes.Solution_Delta p v * s.nodes.Solution_Store p v)

/-! ## Sample data -/

/-- A solver with two points, one of them locally owned, two variables and two constraints. -/
def sample (α : Type) [LinearOrderedField α] : COneShotSolver α :=
  { nPoint := 2, nPointDomain := 1, nVar := 2, nDim := 2, nConstr := 2
    rho := 0, rho_old := 1, theta := 1, theta_old := 1
    DConsVec := fun c p v => (c : α) + p - v
    nodes :=
      { Solution := fun p v => 3 + p + v
        Solution_Store := fun p v => 2 + p - v
        Solution_Save := fun p v => 5 - p + v
        Solution_Delta := fun p v => 2 + p + v
        Solution_DeltaStore := fun p v => 1 + p * v
        AdjointSolution := fun _ _ => 0 }
    direct_nodes :=
      { Solution := fun p v => 1 + p + 2 * v
        Solution_Store := fun p v => 4 - p + v
        Solution_Save := fun p v => 7 + p * v
        Solution_Delta := fun p v => 1 + p - v
        Solution_DeltaStore := fun p v => 3 - p + v
        AdjointSolution := fun _ _ => 0 } }

/-- A configuration with `alpha = 2`, `beta = 4`, every `gamma = 1`, two constraints and two
markers. -/
def sampleConfig (α : Type) [LinearOrderedField α] : CConfig α :=
  { One_Shot_Alpha := 2, One_Shot_Beta := 4, One_Shot_Gamma := fun _ => 1, nConstr := 2
    nMarker_All := 2 }

/-- A mesh with two markers of two and one vertices. -/
def sampleGeometry (α : Type) [LinearOrderedField α] : CGeometry α :=
  { nVertex := fun m => 2 - m
    Coord := fun p d => 1 + 2 * p + d
    Coord_Old := fun p d => 10 + p - d
    Normal := fun m w d => (m : α) + w + d
    Normal_Old := fun m w d => (m : α) - w * d }

/-- The state of the specification's rho/theta scenario: one point, one variable, primal
`Delta = 0.5`, design `Delta = 0.2`, primal `DeltaStore = 0.4`, design `DeltaStore = 0.1`. -/
def rhoThetaScenario (α : Type) [LinearOrderedField α] : COneShotSolver α :=
  { sample α with
    nPoint := 1, nPointDomain := 1, nVar := 1
    nodes := { (sample α).nodes with
      Solution_Delta := fun _ _ => 0.2, Solution_DeltaStore := fun _ _ => 0.1 }
    direct_nodes := { (sample α).direct_nodes with
      Solution_Delta := fun _ _ => 0.5, Solution_DeltaStore := fun _ _ => 0.4 } }

/-- Two solvers agree on the locally-owned points: they have the same `nPointDomain` and `nVar`,
and every node slot of the design and of the primal state and every row of the direction buffer
hold the same value at every point below `nPointDomain` and variable below `nVar`. -/
def agreeOnDomain {α : Type} (s1 s2 : COneShotSolver α) : Prop :=
  s1.nPointDomain = s2.nPointDomain ∧ s1.nVar = s2.nVar ∧
  ∀ p v, p < s1.nPointDomain → v < s1.nVar →
    s1.nodes.Solution p v = s2.nodes.Solution p v ∧
    s1.nodes.Solution_Store p v = s2.nodes.Solution_Store p v ∧
    s1.nodes.Solution_Save p v = s2.nodes.Solution_Save p v ∧
    s1.nodes.Solution_Delta p v = s2.nodes.Solution_Delta p v ∧
    s1.nodes.Solution_DeltaStore p v = s2.nodes.Solution_DeltaStore p v ∧
    s1.direct_nodes.Solution p v = s2.direct_nodes.Solution p v ∧
    s1.direct_nodes.Solution_Store p v = s2.direct_nodes.Solution_Store p v ∧
    s1.direct_nodes.Solution_Save p v = s2.direct_nodes.Solution_Save p v ∧
    s1.direct_nodes.Solution_Delta p v = s2.direct_nodes.Solution_Delta p v ∧
    s1.direct_nodes.Solution_DeltaStore p v = s2.direct_nodes.Solution_DeltaStore p v ∧
    ∀ c, s1.DConsVec c p v = s2.DConsVec c p v

/-- The sample solver with every node slot overwritten by `77` on the halo point `1`. -/
def sampleHalo (α : Type) [LinearOrderedField α] : COneShotSolver α :=
  { sample α with
    nodes :=
      { Solution := fun p v => if p = 0 then (sample α).nodes.Solution p v else 77
        Solution_Store := fun p v => if p = 0 then (sample α).nodes.Solution_Store p v else 77
        Solution_Save := fun p v => if p = 0 then (sample α).nodes.Solution_Save p v else 77
        Solution_Delta := fun p v => if p = 0 then (sample α).nodes.Solution_Delta p v else 77
        Solution_DeltaStore := fun p v =>
          if p = 0 then (sample α).nodes.Solution_DeltaStore p v else 77
        AdjointSolution := fun _ _ => 0 }
    direct_nodes :=
      { Solution := fun p v => if p = 0 then (sample α).direct_nodes.Solution p v else 77
        Solution_Store := fun p v =>
          if p = 0 then (sample α).direct_nodes.Solution_Store p v else 77
        Solution_Save := fun p v =>
          if p = 0 then (sample α).direct_nodes.Solution_Save p v else 77
        Solution_Delta := fun p v =>
          if p = 0 then (sample α).direct_nodes.Solution_Delta p v else 77
        Solution_DeltaStore := fun p v =>
          if p = 0 then (sample α).direct_nodes.Solution_DeltaStore p v else 77
        AdjointSolution := fun _ _ => 0 } }

/-- The sample solver with both Delta slots set to `3` times the DeltaStore slots. -/
def sampleScaled (α : Type) [LinearOrderedField α] : COneShotSolver α :=
  { sample α with
    nodes := { (sample α).nodes with
      Solution_Delta := fun p v => 3 * (sample α).nodes.Solution_DeltaStore p v }
    direct_nodes := { (sample α).direct_nodes with
      Solution_Delta := fun p v => 3 * (sample α).direct_nodes.Solution_DeltaStore p v } }

/-- A solver with one point and one variable whose primal and design Store slots hold `2 ^ 54`
and whose Save slots hold `1`. -/
def stepState : COneShotSolver ℚ :=
  { sample ℚ with
    nPoint := 1, nPointDomain := 1, nVar := 1
    nodes := { (sample ℚ).nodes with
      Solution_Store := fun _ _ => 2 ^ 54, Solution_Save := fun _ _ => 1 }
    direct_nodes := { (sample ℚ).direct_nodes with
      Solution_Store := fun _ _ => 2 ^ 54, Solution_Save := fun _ _ => 1 } }

/-- A solver with one locally-owned point and one variable whose direction buffer holds
`2 ^ 27 + 1` for constraint `0`, `2 ^ 27 - 1` for constraint `1` and `2 ^ (-600)` for the
others. -/
def gramState : COneShotSolver ℚ :=
  { sample ℚ with
    nPoint := 1, nPointDomain := 1, nVar := 1, nConstr := 3
    DConsVec := fun c _ _ =>
      if c = 0 then 2 ^ 27 + 1 else if c = 1 then 2 ^ 27 - 1 else 2 ^ (-600 : ℤ) }

/-- The node container with every value read as a finite `XDouble`. -/
def CVariable.toX {α : Type} (x : CVariable α) : CVariable (XDouble α) :=
  { Solution := fun p v => XDouble.fin (x.Solution p v)
    Solution_Store := fun p v => XDouble.fin (x.Solution_Store p v)
    Solution_Save := fun p v => XDouble.fin (x.Solution_Save p v)
    Solution_Delta := fun p v => XDouble.fin (x.Solution_Delta p v)
    Solution_DeltaStore := fun p v => XDouble.fin (x.Solution_DeltaStore p v)
    AdjointSolution := fun p v => XDouble.fin (x.AdjointSolution p v) }

/-- The configuration with every value read as a finite `XDouble`. -/
def CConfig.toX {α : Type} (c : CConfig α) : CConfig (XDouble α) :=
  { One_Shot_Alpha := XDouble.fin c.One_Shot_Alpha
    One_Shot_Beta := XDouble.fin c.One_Shot_Beta
    One_Shot_Gamma := fun i => XDouble.fin (c.One_Shot_Gamma i)
    nConstr := c.nConstr
    nMarker_All := c.nMarker_All }

/-- The solver with every value read as a finite `XDouble`. -/
def COneShotSolver.toX {α : Type} (s : COneShotSolver α) : COneShotSolver (XDouble α) :=
  { nPoint := s.nPoint, nPointDomain := s.nPointDomain, nVar := s.nVar, nDim := s.nDim
    nConstr := s.nConstr
    rho := XDouble.fin s.rho, rho_old := XDouble.fin s.rho_old
    theta := XDouble.fin s.theta, theta_old := XDouble.fin s.theta_old
    DConsVec := fun c p v => XDouble.fin (s.DConsVec c p v)
    nodes := s.nodes.toX
    direct_nodes := s.direct_nodes.toX }

/-- The reduction of a run in which the other processes contribute `1` to every global sum. -/
def sumWithOne (α : Type) [LinearOrderedField α] : α → α := fun x => x + 1

/-! ## Loop lemmas -/

section LoopLemmas

variable {σ β : Type}

theorem forLoop_zero (body : Nat → σ → σ) (s : σ) : forLoop 0 body s = s := rfl

theorem forLoop_succ (n : Nat) (body : Nat → σ → σ) (s : σ) :
    forLoop (n + 1) body s = body n (forLoop n body s) := rfl

/-- A component of the loop state that each iteration updates on its own evolves by its own
loop. -/
theorem forLoop_proj (π : σ → β) (body : Nat → σ → σ) (g : Nat → β → β)
    (h : ∀ i t, π (body i t) = g i (π t)) (n : Nat) (s : σ) :
    π (forLoop n body s) = forLoop n g (π s) := by
  induction n with
  | zero => rfl
  | succ k ih => rw [forLoop_succ, forLoop_succ, h, ih]

/-- An accumulation loop computes the sum of its increments. -/
theorem forLoop_add {α : Type} [LinearOrderedField α] (f : Nat → α) (a : α) (n : Nat) :
    forLoop n (fun i acc => acc + f i) a = a + ∑ i in Finset.range n, f i := by
  induction n with
  | zero => simp [forLoop]
  | succ k ih => rw [forLoop_succ, ih, Finset.sum_range_succ, add_assoc]

/-- A doubly nested accumulation loop computes the double sum of its increments. -/
theorem forLoop_add2 {α : Type} [LinearOrderedField α] (f : Nat → Nat → α) (a : α) (n m : Nat) :
    forLoop n (fun p acc => forLoop m (fun v acc => acc + f p v) acc) a = a + sumPV n m f := by
  have h : (fun p acc => forLoop m (fun v acc => acc + f p v) acc)
      = fun p (acc : α) => acc + ∑ v in Finset.range m, f p v := by
    funext p acc
    exact forLoop_add (f p) acc m
  rw [h, forLoop_add]
  rfl

end LoopLemmas

/-! ## Decimal literals of the source -/

section Literals

variable {α : Type} [LinearOrderedField α]

theorem lit_zero : (0.0 : α) = 0 := by norm_num

theorem lit_one : (1.0 : α) = 1 := by norm_num

theorem lit_one_dot : (1. : α) = 1 := by norm_num

theorem lit_two : (2. : α) = 2 := by norm_num

theorem lit_eps : (1.0E-9 : α) = 1e-9 := by norm_num

theorem lit_big : (1.0E9 : α) = 1e9 := by norm_num

theorem lit_eps_le_one : (1e-9 : α) ≤ 1 := by norm_num

theorem lit_eps_le_big : (1e-9 : α) ≤ 1e9 := by norm_num

end Literals

/-! ## Closed forms of the snapshot loops -/

namespace COneShotSolver

variable {α : Type}

/-- The state after the first `n` iterations of the loop of `SetStoreSolution`. -/
theorem SetStoreSolution_loop (s : COneShotSolver α) (n : Nat) :
    forLoop n (fun iPoint t =>
      let t1 := { t with direct_nodes := t.direct_nodes.SetSolution_Store iPoint }
      { t1 with nodes := t1.nodes.SetSolution_Store iPoint }) s
    = { s with
        direct_nodes := { s.direct_nodes with
          Solution_Store := fun p =>
            if p < n then s.direct_nodes.Solution p else s.direct_nodes.Solution_Store p }
        nodes := { s.nodes with
          Solution_Store := fun p =>
            if p < n then s.nodes.Solution p else s.nodes.Solution_Store p } } := by
  induction n with
  | zero => simp [forLoop]
  | succ k ih =>
    rw [forLoop_succ, ih]
    simp only [CVariable.SetSolution_Store, setRow]
    congr 2 <;> funext p <;> by_cases h : p = k <;> simp [h, setRow, Nat.lt_succ_iff_lt_or_eq]

/-- The state after the first `n` iterations of the loop of `LoadSolution`. -/
theorem LoadSolution_loop (s : COneShotSolver α) (n : Nat) :
    forLoop n (fun iPoint t =>
      let t1 := { t with direct_nodes :=
        t.direct_nodes.SetSolutionRow iPoint (t.direct_nodes.Solution_Store iPoint) }
      { t1 with nodes := t1.nodes.SetSolutionRow iPoint (t1.nodes.Solution_Store iPoint) }) s
    = { s with
        direct_nodes := { s.direct_nodes with
          Solution := fun p =>
            if p < n then s.direct_nodes.Solution_Store p else s.direct_nodes.Solution p }
        nodes := { s.nodes with
          Solution := fun p =>
            if p < n then s.nodes.Solution_Store p else s.nodes.Solution p } } := by
  induction n with
  | zero => simp [forLoop]
  | succ k ih =>
    rw [forLoop_succ, ih]
    simp only [CVariable.SetSolutionRow, setRow]
    congr 2 <;> funext p <;> by_cases h : p = k <;> simp [h, setRow, Nat.lt_succ_iff_lt_or_eq]

/-- The state after the first `j` iterations of the inner loop of `LoadStepSolution` at the
point `i`. -/
theorem LoadStepSolution_inner [LinearOrderedField α] (stepsize : α) (i : Nat)
    (t : COneShotSolver α) (j : Nat) :
    forLoop j (fun iVar t =>
      let dy := t.direct_nodes.GetSolution_Save i iVar - t.direct_nodes.GetSolution_Store i iVar
      let dbary := t.nodes.GetSolution_Save i iVar - t.nodes.GetSolution_Store i iVar
      let t1 := { t with direct_nodes := (t.direct_nodes.SetSolution i iVar
                    (t.direct_nodes.GetSolution_Store i iVar + stepsize * dy)) }
      { t1 with nodes := (t1.nodes.SetSolution i iVar
                    (t1.nodes.GetSolution_Store i iVar + stepsize * dbary)) }) t
    = { t with
        direct_nodes := { t.direct_nodes with
          Solution := fun p v =>
            if p = i ∧ v < j then
              t.direct_nodes.Solution_Store p v
                + stepsize * (t.direct_nodes.Solution_Save p v - t.direct_nodes.Solution_Store p v)
            else t.direct_nodes.Solution p v }
        nodes := { t.nodes with
          Solution := fun p v =>
            if p = i ∧ v < j then
              t.nodes.Solution_Store p v
                + stepsize * (t.nodes.Solution_Save p v - t.nodes.Solution_Store p v)
            else t.nodes.Solution p v } } := by
  induction j with
  | zero => simp [forLoop]
  | succ k ih =>
    rw [forLoop_succ, ih]
    simp only [CVariable.SetSolution, CVariable.GetSolution_Save, CVariable.GetSolution_Store]
    congr 2 <;> funext p v <;> by_cases hp : p = i <;> by_cases hv : v = k <;>
      simp [hp, hv, set2, Nat.lt_succ_iff_lt_or_eq]

/-- The state after the first `n` iterations of the outer loop of `LoadStepSolution`. -/
theorem LoadStepSolution_loop [LinearOrderedField α] (stepsize : α) (s : COneShotSolver α)
    (m n : Nat) :
    forLoop n (fun iPoint t =>
      forLoop m (fun iVar t =>
        let dy := t.direct_nodes.GetSolution_Save iPoint iVar
                    - t.direct_nodes.GetSolution_Store iPoint iVar
        let dbary := t.nodes.GetSolution_Save iPoint iVar - t.nodes.GetSolution_Store iPoint iVar
        let t1 := { t with direct_nodes := (t.direct_nodes.SetSolution iPoint iVar
                      (t.direct_nodes.GetSolution_Store iPoint iVar + stepsize * dy)) }
        { t1 with nodes := (t1.nodes.SetSolution iPoint iVar
                      (t1.nodes.GetSolution_Store iPoint iVar + stepsize * dbary)) }) t) s
    = { s with
        direct_nodes := { s.direct_nodes with
          Solution := fun p v =>
            if p < n ∧ v < m then
              s.direct_nodes.Solution_Store p v
                + stepsize * (s.direct_nodes.Solution_Save p v - s.direct_nodes.Solution_Store p v)
            else s.direct_nodes.Solution p v }
        nodes := { s.nodes with
          Solution := fun p v =>
            if p < n ∧ v < m then
              s.nodes.Solution_Store p v
                + stepsize * (s.nodes.Solution_Save p v - s.nodes.Solution_Store p v)
            else s.nodes.Solution p v } } := by
  induction n with
  | zero => simp [forLoop]
  | succ k ih =>
    rw [forLoop_succ, ih, LoadStepSolution_inner]
    dsimp only
    congr 2 <;> funext p v <;> by_cases hp : p = k <;> by_cases hv : v < m <;>
      simp [hp, hv, Nat.lt_succ_iff_lt_or_eq]

/-- The state after the first `n` iterations of the loop of `SetAdjoint_OutputUpdate`. -/
theorem SetAdjoint_OutputUpdate_loop (s : COneShotSolver α) (n : Nat) :
    forLoop n (fun iPoint t =>
      { t with direct_nodes :=
        t.direct_nodes.SetAdjointSolution iPoint (t.direct_nodes.Solution_Delta iPoint) }) s
    = { s with
        direct_nodes := { s.direct_nodes with
          AdjointSolution := fun p =>
            if p < n then s.direct_nodes.Solution_Delta p
            else s.direct_nodes.AdjointSolution p } } := by
  induction n with
  | zero => simp [forLoop]
  | succ k ih =>
    rw [forLoop_succ, ih]
    simp only [CVariable.SetAdjointSolution]
    congr 2; funext p; by_cases h : p = k <;> simp [h, setRow, Nat.lt_succ_iff_lt_or_eq]

/-- The state after the first `j` iterations of the inner loop of `SetConstrDerivative` at the
point `i`. -/
theorem SetConstrDerivative_inner (iConstr i : Nat) (t : COneShotSolver α) (j : Nat) :
    forLoop j (fun iVar t =>
      { t with DConsVec := fun c p v =>
          if c = iConstr ∧ p = i ∧ v = iVar then t.nodes.GetSolution i iVar
          else t.DConsVec c p v }) t
    = { t with DConsVec := fun c p v =>
          if c = iConstr ∧ p = i ∧ v < j then t.nodes.Solution p v else t.DConsVec c p v } := by
  induction j with
  | zero => simp [forLoop]
  | succ k ih =>
    rw [forLoop_succ, ih]
    simp only [CVariable.GetSolution]
    congr 1; funext c p v
    by_cases hc : c = iConstr <;> by_cases hp : p = i <;> by_cases hv : v = k <;>
      simp [hc, hp, hv, Nat.lt_succ_iff_lt_or_eq]

/-- The state after the first `n` iterations of the outer loop of `SetConstrDerivative`. -/
theorem SetConstrDerivative_loop (iConstr : Nat) (s : COneShotSolver α) (m n : Nat) :
    forLoop n (fun iPoint t =>
      forLoop m (fun iVar t =>
        { t with DConsVec := fun c p v =>
            if c = iConstr ∧ p = iPoint ∧ v = iVar then t.nodes.GetSolution iPoint iVar
            else t.DConsVec c p v }) t) s
    = { s with DConsVec := fun c p v =>
          if c = iConstr ∧ p < n ∧ v < m then s.nodes.Solution p v else s.DConsVec c p v } := by
  induction n with
  | zero => simp [forLoop]
  | succ k ih =>
    rw [forLoop_succ, ih, SetConstrDerivative_inner]
    dsimp only
    congr 1; funext c p v
    by_cases hc : c = iConstr <;> by_cases hp : p = k <;> by_cases hv : v < m <;>
      simp [hc, hp, hv, Nat.lt_succ_iff_lt_or_eq]

end COneShotSolver

/-! ## Closed forms of the accumulation loops -/

namespace COneShotSolver

variable {α : Type}

/-- The accumulators of `CalculateRhoTheta` hold the three sums of the specification. -/
theorem CalculateRhoTheta_acc_eq [LinearOrderedField α] (s : COneShotSolver α) :
    (CalculateRhoTheta_acc s).myNormDelta = normDeltaOld s ∧
    (CalculateRhoTheta_acc s).myNormDeltaNew = normDeltaNew s ∧
    (CalculateRhoTheta_acc s).myHelper = helperSum s := by
  refine ⟨?_, ?_, ?_⟩
  · unfold CalculateRhoTheta_acc
    rw [forLoop_proj RhoThetaAcc.myNormDelta _
      (fun p a => forLoop s.nVar (fun v a => a + s.direct_nodes.Solution_DeltaStore p v
        * s.direct_nodes.Solution_DeltaStore p v) a)
      (fun p t => forLoop_proj RhoThetaAcc.myNormDelta _ _ (fun _ _ => rfl) _ _)]
    rw [forLoop_add2]
    simp [normDeltaOld, sumPV, pow_two, lit_zero]
  · unfold CalculateRhoTheta_acc
    rw [forLoop_proj RhoThetaAcc.myNormDeltaNew _
      (fun p a => forLoop s.nVar (fun v a => a + s.direct_nodes.Solution_Delta p v
        * s.direct_nodes.Solution_Delta p v) a)
      (fun p t => forLoop_proj RhoThetaAcc.myNormDeltaNew _ _ (fun _ _ => rfl) _ _)]
    rw [forLoop_add2]
    simp [normDeltaNew, sumPV, pow_two, lit_zero]
  · unfold CalculateRhoTheta_acc
    rw [forLoop_proj RhoThetaAcc.myHelper _
      (fun p a => forLoop s.nVar (fun v a => a
        + (s.direct_nodes.Solution_DeltaStore p v * s.nodes.Solution_Delta p v
           - s.nodes.Solution_DeltaStore p v * s.direct_nodes.Solution_Delta p v)) a)
      (fun p t => forLoop_proj RhoThetaAcc.myHelper _ _ (fun _ _ => rfl) _ _)]
    rw [forLoop_add2]
    simp [helperSum, sumPV, lit_zero]

/-- The three accumulation loops of `CalculateLagrangian` and the combination of their results. -/
theorem CalculateLagrangian_eq [LinearOrderedField α] (R : α → α) (s : COneShotSolver α)
    (config : CConfig α) :
    CalculateLagrangian R s config
      = R (termPrimal s config + termDesign s config + termCross s) := by
  unfold CalculateLagrangian
  simp only [forLoop_add2, CVariable.GetSolution_Delta, CVariable.GetSolution_Store,
    CConfig.GetOneShotAlpha, CConfig.GetOneShotBeta, lit_zero, lit_two, zero_add]
  congr 1
  simp only [termPrimal, termDesign, termCross, pow_two]
  ring

/-- The accumulation loop of `MultiplyConstrDerivative`. -/
theorem MultiplyConstrDerivative_eq [LinearOrderedField α] (R : α → α) (s : COneShotSolver α)
    (i j : Nat) :
    MultiplyConstrDerivative R s i j
      = R (sumPV s.nPointDomain s.nVar (fun p v => s.DConsVec i p v * s.DConsVec j p v)) := by
  unfold MultiplyConstrDerivative
  simp only [forLoop_add2, lit_zero, zero_add]

end COneShotSolver

/-! ## The claims -/

open COneShotSolver

/-- C1: for every state whose primal DeltaStore has a non-zero squared norm over the
locally-owned points, `CalculateRhoTheta` (single process, real arithmetic) stores
`rho = min(sqrt(normDeltaNew)/sqrt(normDeltaOld), 1 - 1e-9)` and
`theta = min(max(sqrt(|helper|/normDeltaOld), 1e-9), 1)`, and these satisfy
`0 ≤ rho ≤ 1 - 1e-9` and `1e-9 ≤ theta ≤ 1`. -/
theorem C1_rho_theta_bounds (s : COneShotSolver ℝ) (h : normDeltaOld s ≠ 0) :
    (CalculateRhoTheta id Real.sqrt s).rho
        = min (Real.sqrt (normDeltaNew s) / Real.sqrt (normDeltaOld s)) (1 - 1e-9) ∧
    (CalculateRhoTheta id Real.sqrt s).theta
        = min (max (Real.sqrt (|helperSum s| / normDeltaOld s)) 1e-9) 1 ∧
    0 ≤ (CalculateRhoTheta id Real.sqrt s).rho ∧
    (CalculateRhoTheta id Real.sqrt s).rho ≤ 1 - 1e-9 ∧
    1e-9 ≤ (CalculateRhoTheta id Real.sqrt s).theta ∧
    (CalculateRhoTheta id Real.sqrt s).theta ≤ 1 := by
  obtain ⟨h1, h2, h3⟩ := CalculateRhoTheta_acc_eq s
  have hpos : 0 < normDeltaOld s := by
    have h0 : 0 ≤ normDeltaOld s := by
      unfold normDeltaOld sumPV
      exact Finset.sum_nonneg (fun p _ => Finset.sum_nonneg (fun v _ => sq_nonneg _))
    exact lt_of_le_of_ne h0 (Ne.symm h)
  have hrho : (CalculateRhoTheta id Real.sqrt s).rho
      = min (Real.sqrt (normDeltaNew s) / Real.sqrt (normDeltaOld s)) (1 - 1e-9) := by
    simp only [CalculateRhoTheta, h1, h2, id, lit_one, lit_eps]
  have htheta : (CalculateRhoTheta id Real.sqrt s).theta
      = min (max (Real.sqrt (|helperSum s| / normDeltaOld s)) 1e-9) 1 := by
    simp only [CalculateRhoTheta, h1, h3, id, lit_one, lit_eps]
  refine ⟨hrho, htheta, ?_, ?_, ?_, ?_⟩
  · rw [hrho]
    refine le_min ?_ (by norm_num)
    exact div_nonneg (Real.sqrt_nonneg _) (le_of_lt (Real.sqrt_pos.mpr hpos))
  · rw [hrho]; exact min_le_right _ _
  · rw [htheta]
    exact le_min (le_max_right _ _) (by norm_num)
  · rw [htheta]; exact min_le_right _ _

/-- Witness of C1 at the sample solver, whose primal DeltaStore has squared norm 25. -/
theorem C1_rho_theta_bounds_witness :
    normDeltaOld (sample ℝ) ≠ 0 ∧
    0 ≤ (CalculateRhoTheta id Real.sqrt (sample ℝ)).rho ∧
    (CalculateRhoTheta id Real.sqrt (sample ℝ)).rho ≤ 1 - 1e-9 ∧
    1e-9 ≤ (CalculateRhoTheta id Real.sqrt (sample ℝ)).theta ∧
    (CalculateRhoTheta id Real.sqrt (sample ℝ)).theta ≤ 1 :=
  have h : normDeltaOld (sample ℝ) ≠ 0 := by
    norm_num [normDeltaOld, sumPV, sample, Finset.sum_range_succ]
  ⟨h, (C1_rho_theta_bounds (sample ℝ) h).2.2⟩

/-- C4: on a single process (`R = id`) `CalculateLagrangian` returns
`(alpha/2) * Σ Delta_primal^2 + (beta/2) * Σ Delta_design^2 + Σ Delta_primal * Store_design`, the
sums over the locally-owned points and all variables, with alpha and beta read from the
configuration; with `alpha = 2`, `beta = 4`, one point, one variable, `Delta_primal = 1`,
`Delta_design = 1/2` and stored design state `2` it returns `7/2`, whatever the other members
hold. -/
theorem C4_lagrangian_value {α : Type} [LinearOrderedField α] (s : COneShotSolver α)
    (config : CConfig α) :
    CalculateLagrangian id s config
        = (config.GetOneShotAlpha / 2)
            * sumPV s.nPointDomain s.nVar (fun p v => s.direct_nodes.Solution_Delta p v ^ 2)
          + (config.GetOneShotBeta / 2)
            * sumPV s.nPointDomain s.nVar (fun p v => s.nodes.Solution_Delta p v ^ 2)
          + sumPV s.nPointDomain s.nVar (fun p v =>
              s.direct_nodes.Solution_Delta p v * s.nodes.Solution_Store p v) ∧
    CalculateLagrangian id
        { s with
          nPointDomain := 1
          nVar := 1
          direct_nodes := { s.direct_nodes with Solution_Delta := fun _ _ => 1.0 }
          nodes := { s.nodes with Solution_Delta := fun _ _ => 0.5
                                  Solution_Store := fun _ _ => 2.0 } }
        { config with One_Shot_Alpha := 2, One_Shot_Beta := 4 } = 3.5 := by
  constructor
  · rw [CalculateLagrangian_eq]
    rfl
  · rw [CalculateLagrangian_eq]
    norm_num [termPrimal, termDesign, termCross, sumPV]

/-- C5 fails as stated: with the reduction that adds the contribution `1` of another process,
`CalculateLagrangian` at the sample solver returns `30`, while reducing the three terms
separately and adding the reduced values gives `32`. -/
theorem C5_three_reductions_counterexample :
    CalculateLagrangian (sumWithOne ℚ) (sample ℚ) (sampleConfig ℚ) = 30 ∧
    sumWithOne ℚ (termPrimal (sample ℚ) (sampleConfig ℚ))
      + sumWithOne ℚ (termDesign (sample ℚ) (sampleConfig ℚ))
      + sumWithOne ℚ (termCross (sample ℚ)) = 32 ∧
    CalculateLagrangian (sumWithOne ℚ) (sample ℚ) (sampleConfig ℚ)
      ≠ sumWithOne ℚ (termPrimal (sample ℚ) (sampleConfig ℚ))
        + sumWithOne ℚ (termDesign (sample ℚ) (sampleConfig ℚ))
        + sumWithOne ℚ (termCross (sample ℚ)) := by
  norm_num [CalculateLagrangian, forLoop, CVariable.GetSolution_Delta,
    CVariable.GetSolution_Store, CConfig.GetOneShotAlpha, CConfig.GetOneShotBeta,
    termPrimal, termDesign, termCross, sumPV, sample, sampleConfig, sumWithOne,
    Finset.sum_range_succ]

/-- C5 (amended): for every reduction `R` and every state, `CalculateLagrangian` adds the three
local terms into one local value and reduces that value once:
the result is `R(termPrimal + termDesign + termCross)`. -/
theorem C5_single_reduction {α : Type} [LinearOrderedField α] (R : α → α)
    (s : COneShotSolver α) (config : CConfig α) :
    CalculateLagrangian R s config
      = R (termPrimal s config + termDesign s config + termCross s) :=
  CalculateLagrangian_eq R s config

/-- C6 fails as stated: at the sample solver the adjoint input of point 0, variable 0 after
`SetAdjoint_OutputUpdate` is `1`, the primal Delta, while the design-state Delta there is `2`. -/
theorem C6_adjoint_seed_counterexample :
    (SetAdjoint_OutputUpdate (sample ℚ)).direct_nodes.AdjointSolution 0 0 = 1 ∧
    (sample ℚ).nodes.Solution_Delta 0 0 = 2 ∧
    (SetAdjoint_OutputUpdate (sample ℚ)).direct_nodes.AdjointSolution 0 0
      ≠ (sample ℚ).nodes.Solution_Delta 0 0 := by
  norm_num [SetAdjoint_OutputUpdate, forLoop, CVariable.SetAdjointSolution, setRow, sample]

/-- C6 (amended): after `SetAdjoint_OutputUpdate` the primal solver's adjoint-input vector at
every point `p < nPoint` equals the primal solver's own Delta at `p`, for every variable; the
adjoint input of the other points and every other member are unchanged. -/
theorem C6_adjoint_seed_is_primal_delta {α : Type} (s : COneShotSolver α) (p : Nat)
    (hp : p < s.nPoint) :
    (∀ v, (SetAdjoint_OutputUpdate s).direct_nodes.AdjointSolution p v
        = s.direct_nodes.Solution_Delta p v) ∧
    (∀ q v, s.nPoint ≤ q → (SetAdjoint_OutputUpdate s).direct_nodes.AdjointSolution q v
        = s.direct_nodes.AdjointSolution q v) ∧
    (SetAdjoint_OutputUpdate s).nodes = s.nodes ∧
    (SetAdjoint_OutputUpdate s).direct_nodes.Solution_Delta = s.direct_nodes.Solution_Delta := by
  unfold SetAdjoint_OutputUpdate
  rw [SetAdjoint_OutputUpdate_loop]
  refine ⟨fun v => ?_, fun q v hq => ?_, rfl, rfl⟩
  · simp [hp]
  · simp [Nat.not_lt.mpr hq]

/-- Witness of C6 (amended) at the sample solver, point 1. -/
theorem C6_adjoint_seed_is_primal_delta_witness :
    1 < (sample ℚ).nPoint ∧
    ∀ v, (SetAdjoint_OutputUpdate (sample ℚ)).direct_nodes.AdjointSolution 1 v
        = (sample ℚ).direct_nodes.Solution_Delta 1 v :=
  ⟨by decide, (C6_adjoint_seed_is_primal_delta (sample ℚ) 1 (by decide)).1⟩

/-- C7: for every content of the constraint-direction buffer, every reduction and every pair of
constraint indices, `MultiplyConstrDerivative(i, j)` equals `MultiplyConstrDerivative(j, i)`. -/
theorem C7_inner_product_symmetric {α : Type} [LinearOrderedField α] (R : α → α)
    (s : COneShotSolver α) (i j : Nat) :
    MultiplyConstrDerivative R s i j = MultiplyConstrDerivative R s j i := by
  rw [MultiplyConstrDerivative_eq, MultiplyConstrDerivative_eq]
  congr 2
  funext p v
  exact mul_comm _ _

/-- C8: for every state and constraint index `i`, after `SetConstrDerivative(i)` the call
`MultiplyConstrDerivative(i, i)` on a single process returns the sum, over the locally-owned
points and all variables, of the square of the design state's current solution at the time of
recording, whatever the design nodes are replaced with between the two calls. -/
theorem C8_record_then_norm {α : Type} [LinearOrderedField α] (s : COneShotSolver α) (i : Nat)
    (nodesLater : CVariable α) :
    MultiplyConstrDerivative id { SetConstrDerivative s i with nodes := nodesLater } i i
      = sumPV s.nPointDomain s.nVar (fun p v => s.nodes.Solution p v ^ 2) := by
  rw [MultiplyConstrDerivative_eq]
  unfold SetConstrDerivative
  rw [SetConstrDerivative_loop]
  simp only [id, sumPV]
  refine Finset.sum_congr rfl (fun p hp => Finset.sum_congr rfl (fun v hv => ?_))
  rw [Finset.mem_range] at hp hv
  simp [hp, hv, pow_two]

/-- C9: `SetStoreSolution` followed immediately by `LoadSolution` leaves the current primal and
the current design solution equal to what they were before `SetStoreSolution`, and afterwards, at
every point `p < nPoint`, the Store slots equal the current slots. -/
theorem C9_store_then_load {α : Type} (s : COneShotSolver α) (p : Nat) (hp : p < s.nPoint) :
    (LoadSolution (SetStoreSolution s)).direct_nodes.Solution = s.direct_nodes.Solution ∧
    (LoadSolution (SetStoreSolution s)).nodes.Solution = s.nodes.Solution ∧
    (∀ v, (LoadSolution (SetStoreSolution s)).direct_nodes.Solution_Store p v
        = (LoadSolution (SetStoreSolution s)).direct_nodes.Solution p v) ∧
    (∀ v, (LoadSolution (SetStoreSolution s)).nodes.Solution_Store p v
        = (LoadSolution (SetStoreSolution s)).nodes.Solution p v) := by
  have hn : (SetStoreSolution s).nPoint = s.nPoint := by
    unfold SetStoreSolution
    rw [SetStoreSolution_loop]
  have key : LoadSolution (SetStoreSolution s)
      = { s with
          direct_nodes := { s.direct_nodes with
            Solution_Store := fun q =>
              if q < s.nPoint then s.direct_nodes.Solution q
              else s.direct_nodes.Solution_Store q }
          nodes := { s.nodes with
            Solution_Store := fun q =>
              if q < s.nPoint then s.nodes.Solution q else s.nodes.Solution_Store q } } := by
    unfold LoadSolution
    rw [LoadSolution_loop, hn]
    unfold SetStoreSolution
    rw [SetStoreSolution_loop]
    dsimp only
    congr 2 <;> funext q <;> by_cases hq : q < s.nPoint <;> simp [hq]
  rw [key]
  refine ⟨rfl, rfl, fun v => ?_, fun v => ?_⟩ <;> simp [hp]

/-- Witness of C9 at the sample solver, point 1. -/
theorem C9_store_then_load_witness :
    1 < (sample ℚ).nPoint ∧
    (LoadSolution (SetStoreSolution (sample ℚ))).direct_nodes.Solution
      = (sample ℚ).direct_nodes.Solution ∧
    (LoadSolution (SetStoreSolution (sample ℚ))).nodes.Solution = (sample ℚ).nodes.Solution :=
  ⟨by decide, (C9_store_then_load (sample ℚ) 1 (by decide)).1,
    (C9_store_then_load (sample ℚ) 1 (by decide)).2.1⟩

/-! ## Closed forms of the delta loops -/

namespace COneShotSolver

variable {α : Type}

/-- The state after the first `j` iterations of the inner loop of `SetSolutionDelta` at the
point `i`. -/
theorem SetSolutionDelta_inner [LinearOrderedField α] (i : Nat) (t : COneShotSolver α) (j : Nat) :
    forLoop j (fun iVar t =>
      let res_y := t.direct_nodes.GetSolution i iVar - t.direct_nodes.GetSolution_Store i iVar
      let res_bary := t.nodes.GetSolution i iVar - t.nodes.GetSolution_Store i iVar
      let t1 := { t with direct_nodes := t.direct_nodes.SetSolution_Delta i iVar res_y }
      { t1 with nodes := t1.nodes.SetSolution_Delta i iVar res_bary }) t
    = { t with
        direct_nodes := { t.direct_nodes with
          Solution_Delta := fun p v =>
            if p = i ∧ v < j then t.direct_nodes.Solution p v - t.direct_nodes.Solution_Store p v
            else t.direct_nodes.Solution_Delta p v }
        nodes := { t.nodes with
          Solution_Delta := fun p v =>
            if p = i ∧ v < j then t.nodes.Solution p v - t.nodes.Solution_Store p v
            else t.nodes.Solution_Delta p v } } := by
  induction j with
  | zero => simp [forLoop]
  | succ k ih =>
    rw [forLoop_succ, ih]
    simp only [CVariable.SetSolution_Delta, CVariable.GetSolution, CVariable.GetSolution_Store]
    congr 2 <;> funext p v <;> by_cases hp : p = i <;> by_cases hv : v = k <;>
      simp [hp, hv, set2, Nat.lt_succ_iff_lt_or_eq]

/-- The state after the first `n` iterations of the outer loop of `SetSolutionDelta`. -/
theorem SetSolutionDelta_loop [LinearOrderedField α] (s : COneShotSolver α) (m n : Nat) :
    forLoop n (fun iPoint t =>
      forLoop m (fun iVar t =>
        let res_y := t.direct_nodes.GetSolution iPoint iVar
                       - t.direct_nodes.GetSolution_Store iPoint iVar
        let res_bary := t.nodes.GetSolution iPoint iVar - t.nodes.GetSolution_Store iPoint iVar
        let t1 := { t with direct_nodes := t.direct_nodes.SetSolution_Delta iPoint iVar res_y }
        { t1 with nodes := t1.nodes.SetSolution_Delta iPoint iVar res_bary }) t) s
    = { s with
        direct_nodes := { s.direct_nodes with
          Solution_Delta := fun p v =>
            if p < n ∧ v < m then s.direct_nodes.Solution p v - s.direct_nodes.Solution_Store p v
            else s.direct_nodes.Solution_Delta p v }
        nodes := { s.nodes with
          Solution_Delta := fun p v =>
            if p < n ∧ v < m then s.nodes.Solution p v - s.nodes.Solution_Store p v
            else s.nodes.Solution_Delta p v } } := by
  induction n with
  | zero => simp [forLoop]
  | succ k ih =>
    rw [forLoop_succ, ih, SetSolutionDelta_inner]
    dsimp only
    congr 2 <;> funext p v <;> by_cases hp : p = k <;> by_cases hv : v < m <;>
      simp [hp, hv, Nat.lt_succ_iff_lt_or_eq]

/-- The state after the first `j` iterations of the inner loop of `SetSaveSolutionDelta` at the
point `i`. -/
theorem SetSaveSolutionDelta_inner [LinearOrderedField α] (i : Nat) (t : COneShotSolver α) (j : Nat) :
    forLoop j (fun iVar t =>
      let res_y := t.direct_nodes.GetSolution i iVar - t.direct_nodes.GetSolution_Save i iVar
      let res_bary := t.nodes.GetSolution i iVar - t.nodes.GetSolution_Save i iVar
      let t1 := { t with direct_nodes := t.direct_nodes.SetSolution_Delta i iVar res_y }
      { t1 with nodes := t1.nodes.SetSolution_Delta i iVar res_bary }) t
    = { t with
        direct_nodes := { t.direct_nodes with
          Solution_Delta := fun p v =>
            if p = i ∧ v < j then t.direct_nodes.Solution p v - t.direct_nodes.Solution_Save p v
            else t.direct_nodes.Solution_Delta p v }
        nodes := { t.nodes with
          Solution_Delta := fun p v =>
            if p = i ∧ v < j then t.nodes.Solution p v - t.nodes.Solution_Save p v
            else t.nodes.Solution_Delta p v } } := by
  induction j with
  | zero => simp [forLoop]
  | succ k ih =>
    rw [forLoop_succ, ih]
    simp only [CVariable.SetSolution_Delta, CVariable.GetSolution, CVariable.GetSolution_Save]
    congr 2 <;> funext p v <;> by_cases hp : p = i <;> by_cases hv : v = k <;>
      simp [hp, hv, set2, Nat.lt_succ_iff_lt_or_eq]

/-- The state after the first `n` iterations of the outer loop of `SetSaveSolutionDelta`. -/
theorem SetSaveSolutionDelta_loop [LinearOrderedField α] (s : COneShotSolver α) (m n : Nat) :
    forLoop n (fun iPoint t =>
      forLoop m (fun iVar t =>
        let res_y := t.direct_nodes.GetSolution iPoint iVar
                       - t.direct_nodes.GetSolution_Save iPoint iVar
        let res_bary := t.nodes.GetSolution iPoint iVar - t.nodes.GetSolution_Save iPoint iVar
        let t1 := { t with direct_nodes := t.direct_nodes.SetSolution_Delta iPoint iVar res_y }
        { t1 with nodes := t1.nodes.SetSolution_Delta iPoint iVar res_bary }) t) s
    = { s with
        direct_nodes := { s.direct_nodes with
          Solution_Delta := fun p v =>
            if p < n ∧ v < m then s.direct_nodes.Solution p v - s.direct_nodes.Solution_Save p v
            else s.direct_nodes.Solution_Delta p v }
        nodes := { s.nodes with
          Solution_Delta := fun p v =>
            if p < n ∧ v < m then s.nodes.Solution p v - s.nodes.Solution_Save p v
            else s.nodes.Solution_Delta p v } } := by
  induction n with
  | zero => simp [forLoop]
  | succ k ih =>
    rw [forLoop_succ, ih, SetSaveSolutionDelta_inner]
    dsimp only
    congr 2 <;> funext p v <;> by_cases hp : p = k <;> by_cases hv : v < m <;>
      simp [hp, hv, Nat.lt_succ_iff_lt_or_eq]

/-- The state after the first `j` iterations of the inner loop of `SetStoreSolutionDelta` at the
point `i`. -/
theorem SetStoreSolutionDelta_inner (i : Nat) (t : COneShotSolver α) (j : Nat) :
    forLoop j (fun iVar t =>
      let t1 := { t with direct_nodes := (t.direct_nodes.SetSolution_DeltaStore i iVar
                    (t.direct_nodes.GetSolution_Delta i iVar)) }
      { t1 with nodes := (t1.nodes.SetSolution_DeltaStore i iVar
                    (t1.nodes.GetSolution_Delta i iVar)) }) t
    = { t with
        direct_nodes := { t.direct_nodes with
          Solution_DeltaStore := fun p v =>
            if p = i ∧ v < j then t.direct_nodes.Solution_Delta p v
            else t.direct_nodes.Solution_DeltaStore p v }
        nodes := { t.nodes with
          Solution_DeltaStore := fun p v =>
            if p = i ∧ v < j then t.nodes.Solution_Delta p v
            else t.nodes.Solution_DeltaStore p v } } := by
  induction j with
  | zero => simp [forLoop]
  | succ k ih =>
    rw [forLoop_succ, ih]
    simp only [CVariable.SetSolution_DeltaStore, CVariable.GetSolution_Delta]
    congr 2 <;> funext p v <;> by_cases hp : p = i <;> by_cases hv : v = k <;>
      simp [hp, hv, set2, Nat.lt_succ_iff_lt_or_eq]

/-- The state after the first `n` iterations of the outer loop of `SetStoreSolutionDelta`. -/
theorem SetStoreSolutionDelta_loop (s : COneShotSolver α) (m n : Nat) :
    forLoop n (fun iPoint t =>
      forLoop m (fun iVar t =>
        let t1 := { t with direct_nodes := (t.direct_nodes.SetSolution_DeltaStore iPoint iVar
                      (t.direct_nodes.GetSolution_Delta iPoint iVar)) }
        { t1 with nodes := (t1.nodes.SetSolution_DeltaStore iPoint iVar
                      (t1.nodes.GetSolution_Delta iPoint iVar)) }) t) s
    = { s with
        direct_nodes := { s.direct_nodes with
          Solution_DeltaStore := fun p v =>
            if p < n ∧ v < m then s.direct_nodes.Solution_Delta p v
            else s.direct_nodes.Solution_DeltaStore p v }
        nodes := { s.nodes with
          Solution_DeltaStore := fun p v =>
            if p < n ∧ v < m then s.nodes.Solution_Delta p v
            else s.nodes.Solution_DeltaStore p v } } := by
  induction n with
  | zero => simp [forLoop]
  | succ k ih =>
    rw [forLoop_succ, ih, SetStoreSolutionDelta_inner]
    dsimp only
    congr 2 <;> funext p v <;> by_cases hp : p = k <;> by_cases hv : v < m <;>
      simp [hp, hv, Nat.lt_succ_iff_lt_or_eq]

end COneShotSolver

/-! ## Closed forms of the mesh loops and of the constructor loops -/

namespace COneShotSolver

variable {α : Type}

/-- The geometry after the first `n` iterations of the coordinate loop of `SetMeshPointsOld`. -/
theorem SetMeshPointsOld_coord_loop (g : CGeometry α) (n : Nat) :
    forLoop n (fun jPoint g => g.SetCoord_Old jPoint (g.Coord jPoint)) g
    = { g with Coord_Old := fun p => if p < n then g.Coord p else g.Coord_Old p } := by
  induction n with
  | zero => simp [forLoop]
  | succ k ih =>
    rw [forLoop_succ, ih]
    simp only [CGeometry.SetCoord_Old]
    congr 1; funext p; by_cases h : p = k <;> simp [h, setRow, Nat.lt_succ_iff_lt_or_eq]

/-- The geometry after the first `j` iterations of the vertex loop of `SetMeshPointsOld` at the
marker `i`. -/
theorem SetMeshPointsOld_normal_inner (i : Nat) (g : CGeometry α) (j : Nat) :
    forLoop j (fun iVertex g => g.SetNormal_Old i iVertex (g.Normal i iVertex)) g
    = { g with Normal_Old := fun m w =>
          if m = i ∧ w < j then g.Normal m w else g.Normal_Old m w } := by
  induction j with
  | zero => simp [forLoop]
  | succ k ih =>
    rw [forLoop_succ, ih]
    simp only [CGeometry.SetNormal_Old]
    congr 1; funext m w
    by_cases hm : m = i <;> by_cases hw : w = k <;> simp [hm, hw, Nat.lt_succ_iff_lt_or_eq]

/-- The geometry after the first `n` iterations of the marker loop of `SetMeshPointsOld`. -/
theorem SetMeshPointsOld_normal_loop (g : CGeometry α) (n : Nat) :
    forLoop n (fun iMarker g =>
      forLoop (g.nVertex iMarker) (fun iVertex g =>
        g.SetNormal_Old iMarker iVertex (g.Normal iMarker iVertex)) g) g
    = { g with Normal_Old := fun m w =>
          if m < n ∧ w < g.nVertex m then g.Normal m w else g.Normal_Old m w } := by
  induction n with
  | zero => simp [forLoop]
  | succ k ih =>
    rw [forLoop_succ, ih, SetMeshPointsOld_normal_inner]
    dsimp only
    congr 1; funext m w
    by_cases hm : m = k <;> by_cases hw : w < g.nVertex m <;>
      simp [hm, hw, Nat.lt_succ_iff_lt_or_eq]

/-- The geometry after the first `n` iterations of the loop of `LoadMeshPointsOld`. -/
theorem LoadMeshPointsOld_loop (g : CGeometry α) (n : Nat) :
    forLoop n (fun jPoint g => g.SetCoordRow jPoint (g.Coord_Old jPoint)) g
    = { g with Coord := fun p => if p < n then g.Coord_Old p else g.Coord p } := by
  induction n with
  | zero => simp [forLoop]
  | succ k ih =>
    rw [forLoop_succ, ih]
    simp only [CGeometry.SetCoordRow]
    congr 1; funext p; by_cases h : p = k <;> simp [h, setRow, Nat.lt_succ_iff_lt_or_eq]

/-- The geometry after the first `j` iterations of the dimension loop of `LoadMeshPointsStep` at
the point `i`. -/
theorem LoadMeshPointsStep_inner [LinearOrderedField α] (stepsize : α) (i : Nat)
    (g : CGeometry α) (j : Nat) :
    forLoop j (fun iDim g =>
      g.SetCoord i iDim (g.Coord_Old i iDim + stepsize * g.Coord i iDim)) g
    = { g with Coord := fun p d =>
          if p = i ∧ d < j then g.Coord_Old p d + stepsize * g.Coord p d else g.Coord p d } := by
  induction j with
  | zero => simp [forLoop]
  | succ k ih =>
    rw [forLoop_succ, ih]
    simp only [CGeometry.SetCoord]
    congr 1; funext p d
    by_cases hp : p = i <;> by_cases hd : d = k <;>
      simp [hp, hd, set2, Nat.lt_succ_iff_lt_or_eq]

/-- The geometry after the first `n` iterations of the point loop of `LoadMeshPointsStep`. -/
theorem LoadMeshPointsStep_loop [LinearOrderedField α] (stepsize : α) (g : CGeometry α)
    (m n : Nat) :
    forLoop n (fun jPoint g =>
      forLoop m (fun iDim g =>
        g.SetCoord jPoint iDim (g.Coord_Old jPoint iDim + stepsize * g.Coord jPoint iDim)) g) g
    = { g with Coord := fun p d =>
          if p < n ∧ d < m then g.Coord_Old p d + stepsize * g.Coord p d else g.Coord p d } := by
  induction n with
  | zero => simp [forLoop]
  | succ k ih =>
    rw [forLoop_succ, ih, LoadMeshPointsStep_inner]
    dsimp only
    congr 1; funext p d
    by_cases hp : p = k <;> by_cases hd : d < m <;> simp [hp, hd, Nat.lt_succ_iff_lt_or_eq]

/-- The state after the first `j` iterations of the innermost loop of the constructor. -/
theorem ctor_inner [LinearOrderedField α] (c0 p0 : Nat) (t : COneShotSolver α) (j : Nat) :
    forLoop j (fun iVar t =>
      { t with DConsVec := fun c p v =>
          if c = c0 ∧ p = p0 ∧ v = iVar then 0.0 else t.DConsVec c p v }) t
    = { t with DConsVec := fun c p v =>
          if c = c0 ∧ p = p0 ∧ v < j then 0 else t.DConsVec c p v } := by
  induction j with
  | zero => simp [forLoop]
  | succ k ih =>
    rw [forLoop_succ, ih]
    congr 1; funext c p v
    by_cases hc : c = c0 <;> by_cases hp : p = p0 <;> by_cases hv : v = k <;>
      simp [hc, hp, hv, lit_zero, Nat.lt_succ_iff_lt_or_eq]

/-- The state after the first `n` iterations of the point loop of the constructor. -/
theorem ctor_middle [LinearOrderedField α] (c0 : Nat) (t : COneShotSolver α) (m n : Nat) :
    forLoop n (fun iPoint t =>
      forLoop m (fun iVar t =>
        { t with DConsVec := fun c p v =>
            if c = c0 ∧ p = iPoint ∧ v = iVar then 0.0 else t.DConsVec c p v }) t) t
    = { t with DConsVec := fun c p v =>
          if c = c0 ∧ p < n ∧ v < m then 0 else t.DConsVec c p v } := by
  induction n with
  | zero => simp [forLoop]
  | succ k ih =>
    rw [forLoop_succ, ih, ctor_inner]
    dsimp only
    congr 1; funext c p v
    by_cases hc : c = c0 <;> by_cases hp : p = k <;> by_cases hv : v < m <;>
      simp [hc, hp, hv, Nat.lt_succ_iff_lt_or_eq]

/-- The state after the first `l` iterations of the constraint loop of the constructor. -/
theorem ctor_outer [LinearOrderedField α] (t : COneShotSolver α) (m n l : Nat) :
    forLoop l (fun iConstr t =>
      forLoop n (fun iPoint t =>
        forLoop m (fun iVar t =>
          { t with DConsVec := fun c p v =>
              if c = iConstr ∧ p = iPoint ∧ v = iVar then 0.0 else t.DConsVec c p v }) t) t) t
    = { t with DConsVec := fun c p v =>
          if c < l ∧ p < n ∧ v < m then 0 else t.DConsVec c p v } := by
  induction l with
  | zero => simp [forLoop]
  | succ k ih =>
    rw [forLoop_succ, ih, ctor_middle]
    dsimp only
    congr 1; funext c p v
    by_cases hc : c = k <;> by_cases hp : p < n <;> by_cases hv : v < m <;>
      simp [hc, hp, hv, Nat.lt_succ_iff_lt_or_eq]

end COneShotSolver

/-! ## The claims on the delta and mesh routines -/

/-- C11: after `SetSolutionDelta`, `SetStoreSolutionDelta` and `SetSolutionDelta` again, with
nothing in between, Delta equals DeltaStore at every point `p < nPoint` and variable
`v < nVar`, for the primal and for the design state. -/
theorem C11_delta_history {α : Type} [LinearOrderedField α] (s : COneShotSolver α) (p v : Nat)
    (hp : p < s.nPoint) (hv : v < s.nVar) :
    (SetSolutionDelta (SetStoreSolutionDelta (SetSolutionDelta s))).direct_nodes.Solution_Delta p v
      = (SetSolutionDelta (SetStoreSolutionDelta
          (SetSolutionDelta s))).direct_nodes.Solution_DeltaStore p v ∧
    (SetSolutionDelta (SetStoreSolutionDelta (SetSolutionDelta s))).nodes.Solution_Delta p v
      = (SetSolutionDelta (SetStoreSolutionDelta
          (SetSolutionDelta s))).nodes.Solution_DeltaStore p v := by
  have h1 : ∀ t : COneShotSolver α, SetSolutionDelta t = _ :=
    fun t => SetSolutionDelta_loop t t.nVar t.nPoint
  have h2 : ∀ t : COneShotSolver α, SetStoreSolutionDelta t = _ :=
    fun t => SetStoreSolutionDelta_loop t t.nVar t.nPoint
  rw [h1 (SetStoreSolutionDelta (SetSolutionDelta s)), h2 (SetSolutionDelta s), h1 s]
  simp [hp, hv]

/-- Witness of C11 at the sample solver, point 1, variable 0. -/
theorem C11_delta_history_witness :
    1 < (sample ℚ).nPoint ∧ 0 < (sample ℚ).nVar ∧
    (SetSolutionDelta (SetStoreSolutionDelta
        (SetSolutionDelta (sample ℚ)))).direct_nodes.Solution_Delta 1 0
      = (SetSolutionDelta (SetStoreSolutionDelta
          (SetSolutionDelta (sample ℚ)))).direct_nodes.Solution_DeltaStore 1 0 :=
  ⟨by decide, by decide, (C11_delta_history (sample ℚ) 1 0 (by decide) (by decide)).1⟩

/-- C13: `LoadMeshPointsStep(stepSize)` sets the coordinate of every point `p < nPoint` in every
dimension `d < nDim` to `oldCoord + stepSize * (coordinate held before the call)` and leaves the
old-coordinate slot unchanged; so `LoadMeshPointsStep(0)` yields the old coordinates, the ones
`LoadMeshPointsOld` produces, and `LoadMeshPointsStep(1)` yields old + direction. -/
theorem C13_mesh_step {α : Type} [LinearOrderedField α] (s : COneShotSolver α)
    (config : CConfig α) (g : CGeometry α) (stepSize : α) (p d : Nat)
    (hp : p < s.nPoint) (hd : d < s.nDim) :
    (LoadMeshPointsStep s config g stepSize).Coord p d
      = g.Coord_Old p d + stepSize * g.Coord p d ∧
    (LoadMeshPointsStep s config g stepSize).Coord_Old = g.Coord_Old ∧
    (LoadMeshPointsStep s config g 0).Coord p d = g.Coord_Old p d ∧
    (LoadMeshPointsStep s config g 0).Coord p d = (LoadMeshPointsOld s config g).Coord p d ∧
    (LoadMeshPointsStep s config g 1).Coord p d = g.Coord_Old p d + g.Coord p d := by
  have h1 : ∀ c : α, LoadMeshPointsStep s config g c = _ :=
    fun c => LoadMeshPointsStep_loop c g s.nDim s.nPoint
  have h2 : LoadMeshPointsOld s config g = _ := LoadMeshPointsOld_loop g s.nPoint
  rw [h1 stepSize, h1 0, h1 1, h2]
  refine ⟨?_, rfl, ?_, ?_, ?_⟩ <;> simp [hp, hd]

/-- Witness of C13 at the sample solver and mesh, point 1, dimension 1, step size 1/2. -/
theorem C13_mesh_step_witness :
    1 < (sample ℚ).nPoint ∧ 1 < (sample ℚ).nDim ∧
    (LoadMeshPointsStep (sample ℚ) (sampleConfig ℚ) (sampleGeometry ℚ) (1 / 2)).Coord 1 1
      = (sampleGeometry ℚ).Coord_Old 1 1 + (1 / 2) * (sampleGeometry ℚ).Coord 1 1 :=
  ⟨by decide, by decide,
   (C13_mesh_step (sample ℚ) (sampleConfig ℚ) (sampleGeometry ℚ) (1 / 2) 1 1
      (by decide) (by decide)).1⟩

/-- C14: `LoadMeshPointsOld` sets the coordinates of every point `p < nPoint` to its
old-coordinate slot and leaves every vertex normal, every old normal and the old coordinates
unchanged; and `SetMeshPointsOld` followed by `LoadMeshPointsOld` leaves all coordinates equal
to what they were before the snapshot. -/
theorem C14_mesh_restore {α : Type} (s : COneShotSolver α) (config : CConfig α)
    (g : CGeometry α) (p : Nat) (hp : p < s.nPoint) :
    (LoadMeshPointsOld s config g).Coord p = g.Coord_Old p ∧
    (LoadMeshPointsOld s config g).Normal = g.Normal ∧
    (LoadMeshPointsOld s config g).Normal_Old = g.Normal_Old ∧
    (LoadMeshPointsOld s config g).Coord_Old = g.Coord_Old ∧
    (LoadMeshPointsOld s config (SetMeshPointsOld s config g)).Coord = g.Coord := by
  have h2 : ∀ g0 : CGeometry α, LoadMeshPointsOld s config g0 = _ :=
    fun g0 => LoadMeshPointsOld_loop g0 s.nPoint
  have h3 : SetMeshPointsOld s config g
      = { g with
          Coord_Old := fun q => if q < s.nPoint then g.Coord q else g.Coord_Old q
          Normal_Old := fun m w =>
            if m < config.nMarker_All ∧ w < g.nVertex m then g.Normal m w
            else g.Normal_Old m w } := by
    unfold SetMeshPointsOld
    simp only [CConfig.GetnMarker_All]
    rw [SetMeshPointsOld_coord_loop, SetMeshPointsOld_normal_loop]
  rw [h2 (SetMeshPointsOld s config g), h3, h2 g]
  refine ⟨?_, rfl, rfl, rfl, ?_⟩
  · simp [hp]
  · funext q
    by_cases hq : q < s.nPoint <;> simp [hq]

/-- Witness of C14 at the sample solver and mesh, point 1. -/
theorem C14_mesh_restore_witness :
    1 < (sample ℚ).nPoint ∧
    (LoadMeshPointsOld (sample ℚ) (sampleConfig ℚ) (sampleGeometry ℚ)).Coord 1
      = (sampleGeometry ℚ).Coord_Old 1 :=
  ⟨by decide,
   (C14_mesh_restore (sample ℚ) (sampleConfig ℚ) (sampleGeometry ℚ) 1 (by decide)).1⟩

/-- C15: `SetSolutionDelta` sets `Delta = current - Store` and `SetSaveSolutionDelta` sets
`Delta = current - Save` at every point `p < nPoint` and variable `v < nVar`, for the primal and
for the design state, and neither changes the current, Store, Save or DeltaStore slots. -/
theorem C15_compute_delta {α : Type} [LinearOrderedField α] (s : COneShotSolver α) (p v : Nat)
    (hp : p < s.nPoint) (hv : v < s.nVar) :
    ((SetSolutionDelta s).direct_nodes.Solution_Delta p v
        = s.direct_nodes.Solution p v - s.direct_nodes.Solution_Store p v ∧
     (SetSolutionDelta s).nodes.Solution_Delta p v
        = s.nodes.Solution p v - s.nodes.Solution_Store p v ∧
     (SetSaveSolutionDelta s).direct_nodes.Solution_Delta p v
        = s.direct_nodes.Solution p v - s.direct_nodes.Solution_Save p v ∧
     (SetSaveSolutionDelta s).nodes.Solution_Delta p v
        = s.nodes.Solution p v - s.nodes.Solution_Save p v) ∧
    ((SetSolutionDelta s).direct_nodes.Solution = s.direct_nodes.Solution ∧
     (SetSolutionDelta s).direct_nodes.Solution_Store = s.direct_nodes.Solution_Store ∧
     (SetSolutionDelta s).direct_nodes.Solution_Save = s.direct_nodes.Solution_Save ∧
     (SetSolutionDelta s).direct_nodes.Solution_DeltaStore = s.direct_nodes.Solution_DeltaStore ∧
     (SetSolutionDelta s).nodes.Solution = s.nodes.Solution ∧
     (SetSolutionDelta s).nodes.Solution_Store = s.nodes.Solution_Store ∧
     (SetSolutionDelta s).nodes.Solution_Save = s.nodes.Solution_Save ∧
     (SetSolutionDelta s).nodes.Solution_DeltaStore = s.nodes.Solution_DeltaStore) ∧
    ((SetSaveSolutionDelta s).direct_nodes.Solution = s.direct_nodes.Solution ∧
     (SetSaveSolutionDelta s).direct_nodes.Solution_Store = s.direct_nodes.Solution_Store ∧
     (SetSaveSolutionDelta s).direct_nodes.Solution_Save = s.direct_nodes.Solution_Save ∧
     (SetSaveSolutionDelta s).direct_nodes.Solution_DeltaStore
        = s.direct_nodes.Solution_DeltaStore ∧
     (SetSaveSolutionDelta s).nodes.Solution = s.nodes.Solution ∧
     (SetSaveSolutionDelta s).nodes.Solution_Store = s.nodes.Solution_Store ∧
     (SetSaveSolutionDelta s).nodes.Solution_Save = s.nodes.Solution_Save ∧
     (SetSaveSolutionDelta s).nodes.Solution_DeltaStore = s.nodes.Solution_DeltaStore) := by
  have h1 : SetSolutionDelta s = _ := SetSolutionDelta_loop s s.nVar s.nPoint
  have h2 : SetSaveSolutionDelta s = _ := SetSaveSolutionDelta_loop s s.nVar s.nPoint
  rw [h1, h2]
  refine ⟨⟨?_, ?_, ?_, ?_⟩, ⟨rfl, rfl, rfl, rfl, rfl, rfl, rfl, rfl⟩,
    ⟨rfl, rfl, rfl, rfl, rfl, rfl, rfl, rfl⟩⟩ <;> simp [hp, hv]

/-- Witness of C15 at the sample solver, point 1, variable 1. -/
theorem C15_compute_delta_witness :
    1 < (sample ℚ).nPoint ∧ 1 < (sample ℚ).nVar ∧
    (SetSolutionDelta (sample ℚ)).direct_nodes.Solution_Delta 1 1
      = (sample ℚ).direct_nodes.Solution 1 1 - (sample ℚ).direct_nodes.Solution_Store 1 1 :=
  ⟨by decide, by decide, (C15_compute_delta (sample ℚ) 1 1 (by decide) (by decide)).1.1⟩

/-! ## Lemmas on the sums and on the rho/theta estimate -/

/-- Two double sums with the same terms on the index range are equal. -/
theorem sumPV_congr {α : Type} [LinearOrderedField α] (n m : Nat) (f g : Nat → Nat → α)
    (h : ∀ p v, p < n → v < m → f p v = g p v) : sumPV n m f = sumPV n m g := by
  unfold sumPV
  refine Finset.sum_congr rfl (fun p hp => Finset.sum_congr rfl (fun v hv => ?_))
  exact h p v (Finset.mem_range.mp hp) (Finset.mem_range.mp hv)

/-- A double sum as one sum over the pairs (point, variable). -/
theorem sumPV_eq_sum_product {α : Type} [LinearOrderedField α] (n m : Nat) (f : Nat → Nat → α) :
    sumPV n m f = ∑ x in Finset.range n ×ˢ Finset.range m, f x.1 x.2 := by
  unfold sumPV
  rw [Finset.sum_product']

/-- A double sum of squares is non-negative. -/
theorem sumPV_sq_nonneg {α : Type} [LinearOrderedField α] (n m : Nat) (f : Nat → Nat → α) :
    0 ≤ sumPV n m (fun p v => f p v ^ 2) := by
  unfold sumPV
  exact Finset.sum_nonneg (fun p _ => Finset.sum_nonneg (fun v _ => sq_nonneg _))

/-- A double sum of squares vanishes exactly when every term of the range vanishes. -/
theorem sumPV_sq_eq_zero_iff {α : Type} [LinearOrderedField α] (n m : Nat) (f : Nat → Nat → α) :
    sumPV n m (fun p v => f p v ^ 2) = 0 ↔ ∀ p v, p < n → v < m → f p v = 0 := by
  unfold sumPV
  rw [Finset.sum_eq_zero_iff_of_nonneg
    (fun p _ => Finset.sum_nonneg (fun v _ => sq_nonneg (f p v)))]
  constructor
  · intro h p v hp hv
    have h1 := h p (Finset.mem_range.mpr hp)
    rw [Finset.sum_eq_zero_iff_of_nonneg (fun v _ => sq_nonneg (f p v))] at h1
    exact pow_eq_zero_iff (two_ne_zero) |>.mp (h1 v (Finset.mem_range.mpr hv))
  · intro h p hp
    refine Finset.sum_eq_zero (fun v hv => ?_)
    rw [h p v (Finset.mem_range.mp hp) (Finset.mem_range.mp hv)]
    simp

/-- The rho that `CalculateRhoTheta` stores, in terms of the sums of the specification. -/
theorem CalculateRhoTheta_rho {α : Type} [LinearOrderedField α] (R sqrt : α → α)
    (s : COneShotSolver α) :
    (CalculateRhoTheta R sqrt s).rho
      = min (sqrt (R (normDeltaNew s)) / sqrt (R (normDeltaOld s))) (1 - 1e-9) := by
  obtain ⟨h1, h2, _⟩ := CalculateRhoTheta_acc_eq s
  simp only [CalculateRhoTheta, h1, h2, lit_one, lit_eps]

/-- The theta that `CalculateRhoTheta` stores, in terms of the sums of the specification. -/
theorem CalculateRhoTheta_theta {α : Type} [LinearOrderedField α] (R sqrt : α → α)
    (s : COneShotSolver α) :
    (CalculateRhoTheta R sqrt s).theta
      = min (max (sqrt (|R (helperSum s)| / R (normDeltaOld s))) 1e-9) 1 := by
  obtain ⟨h1, _, h3⟩ := CalculateRhoTheta_acc_eq s
  simp only [CalculateRhoTheta, h1, h3, lit_one, lit_eps]

/-! ## The claims on the estimates -/

/-- C12: whenever the squared norm of the primal Delta is at least that of the primal
DeltaStore and the latter is non-zero, `CalculateRhoTheta` (single process, real arithmetic) sets
rho to the cap `1 - 1e-9`; in the scenario of one point, one variable, primal Delta `0.5`, design
Delta `0.2`, primal DeltaStore `0.4`, design DeltaStore `0.1` it computes `normDeltaOld = 0.16`,
`normDeltaNew = 0.25`, `helper = 0.03`, `rho = 0.999999999` and `theta = sqrt(0.03/0.16)`, which
lies strictly between `1e-9` and `1`. -/
theorem C12_no_contraction_cap (s : COneShotSolver ℝ) (h0 : normDeltaOld s ≠ 0)
    (hge : normDeltaOld s ≤ normDeltaNew s) :
    (CalculateRhoTheta id Real.sqrt s).rho = 1 - 1e-9 ∧
    normDeltaOld (rhoThetaScenario ℝ) = 0.16 ∧
    normDeltaNew (rhoThetaScenario ℝ) = 0.25 ∧
    helperSum (rhoThetaScenario ℝ) = 0.03 ∧
    (CalculateRhoTheta id Real.sqrt (rhoThetaScenario ℝ)).rho = 0.999999999 ∧
    (CalculateRhoTheta id Real.sqrt (rhoThetaScenario ℝ)).theta = Real.sqrt (0.03 / 0.16) ∧
    1e-9 < Real.sqrt (0.03 / 0.16) ∧ Real.sqrt (0.03 / 0.16) < 1 := by
  have cap : ∀ t : COneShotSolver ℝ, normDeltaOld t ≠ 0 → normDeltaOld t ≤ normDeltaNew t →
      (CalculateRhoTheta id Real.sqrt t).rho = 1 - 1e-9 := by
    intro t ht0 htge
    have hpos : 0 < normDeltaOld t := lt_of_le_of_ne (sumPV_sq_nonneg _ _ _) (Ne.symm ht0)
    rw [CalculateRhoTheta_rho]
    refine min_eq_right ?_
    have h1 : 1 ≤ Real.sqrt (normDeltaNew t) / Real.sqrt (normDeltaOld t) :=
      (one_le_div (Real.sqrt_pos.mpr hpos)).mpr (Real.sqrt_le_sqrt htge)
    refine le_trans ?_ h1
    norm_num
  have e1 : normDeltaOld (rhoThetaScenario ℝ) = 0.16 := by
    norm_num [normDeltaOld, sumPV, rhoThetaScenario]
  have e2 : normDeltaNew (rhoThetaScenario ℝ) = 0.25 := by
    norm_num [normDeltaNew, sumPV, rhoThetaScenario]
  have e3 : helperSum (rhoThetaScenario ℝ) = 0.03 := by
    norm_num [helperSum, sumPV, rhoThetaScenario]
  have b1 : (1e-9 : ℝ) < Real.sqrt (0.03 / 0.16) :=
    (Real.lt_sqrt (by norm_num)).mpr (by norm_num)
  have b2 : Real.sqrt (0.03 / 0.16) < 1 := (Real.sqrt_lt' one_pos).mpr (by norm_num)
  refine ⟨cap s h0 hge, e1, e2, e3, ?_, ?_, b1, b2⟩
  · rw [cap (rhoThetaScenario ℝ) (by rw [e1]; norm_num) (by rw [e1, e2]; norm_num)]
    norm_num
  · rw [CalculateRhoTheta_theta, e1, e3]
    simp only [id]
    rw [abs_of_pos (by norm_num : (0 : ℝ) < 0.03), max_eq_left (le_of_lt b1),
      min_eq_left (le_of_lt b2)]

/-- Witness of C12 at the scenario state itself. -/
theorem C12_no_contraction_cap_witness :
    normDeltaOld (rhoThetaScenario ℝ) ≠ 0 ∧
    normDeltaOld (rhoThetaScenario ℝ) ≤ normDeltaNew (rhoThetaScenario ℝ) ∧
    (CalculateRhoTheta id Real.sqrt (rhoThetaScenario ℝ)).rho = 1 - 1e-9 :=
  have h0 : normDeltaOld (rhoThetaScenario ℝ) ≠ 0 := by
    norm_num [normDeltaOld, sumPV, rhoThetaScenario]
  have hge : normDeltaOld (rhoThetaScenario ℝ) ≤ normDeltaNew (rhoThetaScenario ℝ) := by
    norm_num [normDeltaOld, normDeltaNew, sumPV, rhoThetaScenario]
  ⟨h0, hge, (C12_no_contraction_cap (rhoThetaScenario ℝ) h0 hge).1⟩

/-- C16: the reduction-bearing computations read only the locally-owned points: for two
solvers that agree on every point below `nPointDomain` (and for the same configuration), whatever
they hold on the halo points, `CalculateRhoTheta` stores the same rho and theta,
`CalculateLagrangian` returns the same value, and `SetConstrDerivative` followed by
`MultiplyConstrDerivative` returns the same value, for every reduction and square root. -/
theorem C16_halo_independence {α : Type} [LinearOrderedField α] (R sqrt : α → α)
    (s1 s2 : COneShotSolver α) (config : CConfig α) (h : agreeOnDomain s1 s2) :
    (CalculateRhoTheta R sqrt s1).rho = (CalculateRhoTheta R sqrt s2).rho ∧
    (CalculateRhoTheta R sqrt s1).theta = (CalculateRhoTheta R sqrt s2).theta ∧
    CalculateLagrangian R s1 config = CalculateLagrangian R s2 config ∧
    ∀ k i j, MultiplyConstrDerivative R (SetConstrDerivative s1 k) i j
      = MultiplyConstrDerivative R (SetConstrDerivative s2 k) i j := by
  obtain ⟨hn, hm, hpv⟩ := h
  have eOld : normDeltaOld s1 = normDeltaOld s2 := by
    unfold normDeltaOld
    rw [← hn, ← hm]
    exact sumPV_congr _ _ _ _ (fun p v hp hv => by
      obtain ⟨_, _, _, _, _, _, _, _, _, h10, _⟩ := hpv p v hp hv
      rw [h10])
  have eNew : normDeltaNew s1 = normDeltaNew s2 := by
    unfold normDeltaNew
    rw [← hn, ← hm]
    exact sumPV_congr _ _ _ _ (fun p v hp hv => by
      obtain ⟨_, _, _, _, _, _, _, _, h9, _, _⟩ := hpv p v hp hv
      rw [h9])
  have eHelper : helperSum s1 = helperSum s2 := by
    unfold helperSum
    rw [← hn, ← hm]
    exact sumPV_congr _ _ _ _ (fun p v hp hv => by
      obtain ⟨_, _, _, h4, h5, _, _, _, h9, h10, _⟩ := hpv p v hp hv
      rw [h4, h5, h9, h10])
  have eP : termPrimal s1 config = termPrimal s2 config := by
    unfold termPrimal
    rw [← hn, ← hm]
    congr 1
    exact sumPV_congr _ _ _ _ (fun p v hp hv => by
      obtain ⟨_, _, _, _, _, _, _, _, h9, _, _⟩ := hpv p v hp hv
      rw [h9])
  have eD : termDesign s1 config = termDesign s2 config := by
    unfold termDesign
    rw [← hn, ← hm]
    congr 1
    exact sumPV_congr _ _ _ _ (fun p v hp hv => by
      obtain ⟨_, _, _, h4, _, _, _, _, _, _, _⟩ := hpv p v hp hv
      rw [h4])
  have eC : termCross s1 = termCross s2 := by
    unfold termCross
    rw [← hn, ← hm]
    exact sumPV_congr _ _ _ _ (fun p v hp hv => by
      obtain ⟨_, h2, _, _, _, _, _, _, h9, _, _⟩ := hpv p v hp hv
      rw [h2, h9])
  refine ⟨?_, ?_, ?_, fun k i j => ?_⟩
  · rw [CalculateRhoTheta_rho, CalculateRhoTheta_rho, eOld, eNew]
  · rw [CalculateRhoTheta_theta, CalculateRhoTheta_theta, eOld, eHelper]
  · rw [CalculateLagrangian_eq, CalculateLagrangian_eq, eP, eD, eC]
  · have hk : ∀ t : COneShotSolver α, SetConstrDerivative t k = _ :=
      fun t => SetConstrDerivative_loop k t t.nVar t.nPointDomain
    rw [MultiplyConstrDerivative_eq, MultiplyConstrDerivative_eq, hk s1, hk s2]
    dsimp only
    rw [← hn, ← hm]
    congr 1
    exact sumPV_congr _ _ _ _ (fun p v hp hv => by
      obtain ⟨h1, _, _, _, _, _, _, _, _, _, h11⟩ := hpv p v hp hv
      simp only [hp, hv, hn ▸ hp, hm ▸ hv, and_true, h1, h11])

/-- Witness of C16 at the sample solver and its copy with other halo values. -/
theorem C16_halo_independence_witness :
    agreeOnDomain (sample ℚ) (sampleHalo ℚ) ∧
    (sample ℚ).nodes.Solution_Delta 1 0 ≠ (sampleHalo ℚ).nodes.Solution_Delta 1 0 ∧
    CalculateLagrangian id (sample ℚ) (sampleConfig ℚ)
      = CalculateLagrangian id (sampleHalo ℚ) (sampleConfig ℚ) :=
  have h : agreeOnDomain (sample ℚ) (sampleHalo ℚ) := by
    refine ⟨rfl, rfl, fun p v hp _ => ?_⟩
    have hp0 : p = 0 := by
      have : p < 1 := hp
      omega
    subst hp0
    simp [sampleHalo, sample]
  ⟨h, by norm_num [sampleHalo, sample],
    (C16_halo_independence id id (sample ℚ) (sampleHalo ℚ) (sampleConfig ℚ) h).2.2.1⟩

/-- C17: after every call of `CalculateRhoTheta`, `rho_old` equals the new rho and `theta_old`
the new theta; and the new rho and theta do not depend on the values that rho, theta, rho_old
and theta_old held before the call. -/
theorem C17_rho_theta_memory {α : Type} [LinearOrderedField α] (R sqrt : α → α)
    (s : COneShotSolver α) (r0 t0 r1 t1 : α) :
    (CalculateRhoTheta R sqrt s).rho_old = (CalculateRhoTheta R sqrt s).rho ∧
    (CalculateRhoTheta R sqrt s).theta_old = (CalculateRhoTheta R sqrt s).theta ∧
    (CalculateRhoTheta R sqrt
        { s with rho := r0, theta := t0, rho_old := r1, theta_old := t1 }).rho
      = (CalculateRhoTheta R sqrt s).rho ∧
    (CalculateRhoTheta R sqrt
        { s with rho := r0, theta := t0, rho_old := r1, theta_old := t1 }).theta
      = (CalculateRhoTheta R sqrt s).theta := by
  refine ⟨rfl, rfl, ?_, ?_⟩
  · rw [CalculateRhoTheta_rho, CalculateRhoTheta_rho]
    rfl
  · rw [CalculateRhoTheta_theta, CalculateRhoTheta_theta]
    rfl

/-- C18: for rho in `[0, 1 - 1e-9]` and theta in `[1e-9, 1]` the lower clamp of
`CalculateAlphaBeta` is not active: `2*theta/(1-rho)^2 ≥ 2e-9` and `2/theta ≥ 2`, so
`alpha = min(2*theta/(1-rho)^2, 1e9)` and `beta = min(2/theta, 1e9)`; and when rho is at its cap
`1 - 1e-9`, alpha is `1e9`. -/
theorem C18_lower_clamp_inactive {α : Type} [LinearOrderedField α] (s : COneShotSolver α)
    (config : CConfig α) (hr0 : 0 ≤ s.rho) (hr1 : s.rho ≤ 1 - 1e-9) (ht0 : 1e-9 ≤ s.theta)
    (ht1 : s.theta ≤ 1) :
    2e-9 ≤ 2 * s.theta / (1 - s.rho) ^ 2 ∧
    2 ≤ 2 / s.theta ∧
    (CalculateAlphaBeta s config).GetOneShotAlpha = min (2 * s.theta / (1 - s.rho) ^ 2) 1e9 ∧
    (CalculateAlphaBeta s config).GetOneShotBeta = min (2 / s.theta) 1e9 ∧
    (s.rho = 1 - 1e-9 → (CalculateAlphaBeta s config).GetOneShotAlpha = 1e9) := by
  have eEps : (1e-9 : α) = 1 / 10 ^ 9 := by norm_num
  have eBig : (1e9 : α) = 10 ^ 9 := by norm_num
  have e2Eps : (2e-9 : α) = 2 / 10 ^ 9 := by norm_num
  rw [eEps] at hr1 ht0
  have hθ : (0 : α) < s.theta := lt_of_lt_of_le (by positivity) ht0
  have hx0 : (1 : α) / 10 ^ 9 ≤ 1 - s.rho := by linarith
  have hx1 : 1 - s.rho ≤ 1 := by linarith
  have hxpos : (0 : α) < 1 - s.rho := lt_of_lt_of_le (by positivity) hx0
  have hsq : (0 : α) < (1 - s.rho) ^ 2 := by positivity
  have hsq1 : (1 - s.rho) ^ 2 ≤ 1 := by nlinarith
  have ha : (2e-9 : α) ≤ 2 * s.theta / (1 - s.rho) ^ 2 := by
    rw [e2Eps, le_div_iff₀ hsq]
    have h2 : (2 : α) / 10 ^ 9 ≤ 2 * s.theta := by linarith
    have h3 : (0 : α) ≤ 2 / 10 ^ 9 := by positivity
    nlinarith
  have hb : (2 : α) ≤ 2 / s.theta := by
    rw [le_div_iff₀ hθ]
    linarith
  have hA : (CalculateAlphaBeta s config).GetOneShotAlpha
      = min (2 * s.theta / (1 - s.rho) ^ 2) 1e9 := by
    simp only [CalculateAlphaBeta, CConfig.GetOneShotAlpha, CConfig.SetOneShotAlpha,
      CConfig.SetOneShotBeta, lit_two, lit_one_dot, lit_eps, lit_big, ← pow_two]
    refine max_eq_left (le_min (le_trans ?_ ha) lit_eps_le_big)
    norm_num
  have hB : (CalculateAlphaBeta s config).GetOneShotBeta = min (2 / s.theta) 1e9 := by
    simp only [CalculateAlphaBeta, CConfig.GetOneShotBeta, CConfig.SetOneShotAlpha,
      CConfig.SetOneShotBeta, lit_two, lit_eps, lit_big]
    refine max_eq_left (le_min (le_trans ?_ hb) lit_eps_le_big)
    norm_num
  refine ⟨ha, hb, hA, hB, fun hcap => ?_⟩
  rw [hA]
  refine min_eq_right ?_
  have hx : 1 - s.rho = 1 / 10 ^ 9 := by rw [hcap, eEps]; ring
  rw [hx, eBig, le_div_iff₀ (by positivity)]
  have h2 : (2 : α) / 10 ^ 9 ≤ 2 * s.theta := by linarith
  calc (10 : α) ^ 9 * (1 / 10 ^ 9) ^ 2 = 1 / 10 ^ 9 := by norm_num
    _ ≤ 2 / 10 ^ 9 := by norm_num
    _ ≤ 2 * s.theta := h2

/-- Witness of C18 at the sample solver, which holds `rho = 0` and `theta = 1`. -/
theorem C18_lower_clamp_inactive_witness :
    (0 : ℚ) ≤ (sample ℚ).rho ∧ (sample ℚ).rho ≤ 1 - 1e-9 ∧ 1e-9 ≤ (sample ℚ).theta ∧
    (sample ℚ).theta ≤ 1 ∧
    (CalculateAlphaBeta (sample ℚ) (sampleConfig ℚ)).GetOneShotAlpha
      = min (2 * (sample ℚ).theta / (1 - (sample ℚ).rho) ^ 2) 1e9 :=
  have hr0 : (0 : ℚ) ≤ (sample ℚ).rho := by norm_num [sample]
  have hr1 : (sample ℚ).rho ≤ 1 - 1e-9 := by norm_num [sample]
  have ht0 : 1e-9 ≤ (sample ℚ).theta := by norm_num [sample]
  have ht1 : (sample ℚ).theta ≤ 1 := by norm_num [sample]
  ⟨hr0, hr1, ht0, ht1,
    (C18_lower_clamp_inactive (sample ℚ) (sampleConfig ℚ) hr0 hr1 ht0 ht1).2.2.1⟩

/-- C19 (amended): on a single process, if for a scalar `c` the Delta slots are `c` times the
DeltaStore slots on all locally-owned points, for the primal and for the design state, and the
primal DeltaStore has a non-zero squared norm there, then the cross term `helper` is `0` and
`CalculateRhoTheta` sets theta to its floor `1e-9`; rho is
`min(sqrt(normDeltaNew)/sqrt(normDeltaOld), 1 - 1e-9)` with `normDeltaNew = c^2 * normDeltaOld`,
which in exact real arithmetic is `min(|c|, 1 - 1e-9)`. -/
theorem C19_uniform_scaling (s : COneShotSolver ℝ) (c : ℝ) (h0 : normDeltaOld s ≠ 0)
    (hc : ∀ p v, p < s.nPointDomain → v < s.nVar →
      s.direct_nodes.Solution_Delta p v = c * s.direct_nodes.Solution_DeltaStore p v ∧
      s.nodes.Solution_Delta p v = c * s.nodes.Solution_DeltaStore p v) :
    helperSum s = 0 ∧
    (CalculateRhoTheta id Real.sqrt s).theta = 1e-9 ∧
    (CalculateRhoTheta id Real.sqrt s).rho = min |c| (1 - 1e-9) ∧
    (CalculateRhoTheta id Real.sqrt s).rho
      = min (Real.sqrt (normDeltaNew s) / Real.sqrt (normDeltaOld s)) (1 - 1e-9) ∧
    normDeltaNew s = c ^ 2 * normDeltaOld s := by
  have hpos : 0 < normDeltaOld s := lt_of_le_of_ne (sumPV_sq_nonneg _ _ _) (Ne.symm h0)
  have eH : helperSum s = 0 := by
    unfold helperSum
    rw [sumPV_congr _ _ _ (fun _ _ => 0) (fun p v hp hv => by
      obtain ⟨h1, h2⟩ := hc p v hp hv
      rw [h1, h2]
      ring)]
    simp [sumPV]
  have eN : normDeltaNew s = c ^ 2 * normDeltaOld s := by
    unfold normDeltaNew normDeltaOld
    rw [sumPV_congr _ _ _ (fun p v => c ^ 2 * s.direct_nodes.Solution_DeltaStore p v ^ 2)
      (fun p v hp hv => by
        rw [(hc p v hp hv).1]
        ring)]
    simp only [sumPV, Finset.mul_sum]
  refine ⟨eH, ?_, ?_, CalculateRhoTheta_rho id Real.sqrt s, eN⟩
  · rw [CalculateRhoTheta_theta, eH]
    simp only [id, abs_zero, zero_div, Real.sqrt_zero]
    rw [max_eq_right (by norm_num), min_eq_left (by norm_num)]
  · rw [CalculateRhoTheta_rho, eN]
    simp only [id]
    rw [Real.sqrt_mul (sq_nonneg c), Real.sqrt_sq_eq_abs,
      mul_div_assoc, div_self (ne_of_gt (Real.sqrt_pos.mpr hpos)), mul_one]

/-- Witness of C19 (amended) at the sample solver with both Delta slots scaled by `3`. -/
theorem C19_uniform_scaling_witness :
    normDeltaOld (sampleScaled ℝ) ≠ 0 ∧ helperSum (sampleScaled ℝ) = 0 ∧
    (CalculateRhoTheta id Real.sqrt (sampleScaled ℝ)).theta = 1e-9 :=
  have h0 : normDeltaOld (sampleScaled ℝ) ≠ 0 := by
    norm_num [normDeltaOld, sumPV, sampleScaled, sample, Finset.sum_range_succ]
  have h := C19_uniform_scaling (sampleScaled ℝ) 3 h0 (fun _ _ _ _ => ⟨rfl, rfl⟩)
  ⟨h0, h.1, h.2.1⟩

/-! ## The frame of `SetConstrDerivative` -/

/-- C21: `SetConstrDerivative(i)` overwrites only the direction of constraint `i`: for all
constraint indices `j ≠ i` and `k ≠ i` the stored direction of `j` is unchanged and
`MultiplyConstrDerivative(j, k)` returns the same value before and after the call, for every
reduction; the design state, the primal state and the sizes are unchanged too. -/
theorem C21_record_frame {α : Type} [LinearOrderedField α] (R : α → α) (s : COneShotSolver α)
    (i j k : Nat) (hj : j ≠ i) (hk : k ≠ i) :
    (SetConstrDerivative s i).DConsVec j = s.DConsVec j ∧
    MultiplyConstrDerivative R (SetConstrDerivative s i) j k
      = MultiplyConstrDerivative R s j k ∧
    (SetConstrDerivative s i).nodes = s.nodes ∧
    (SetConstrDerivative s i).direct_nodes = s.direct_nodes ∧
    (SetConstrDerivative s i).nPointDomain = s.nPointDomain ∧
    (SetConstrDerivative s i).nVar = s.nVar := by
  have h : SetConstrDerivative s i = _ := SetConstrDerivative_loop i s s.nVar s.nPointDomain
  refine ⟨?_, ?_, ?_, ?_, ?_, ?_⟩
  · rw [h]
    funext p v
    simp [hj]
  · rw [MultiplyConstrDerivative_eq, MultiplyConstrDerivative_eq, h]
    dsimp only
    congr 1
    exact sumPV_congr _ _ _ _ (fun p v _ _ => by simp [hj, hk])
  · rw [h]
  · rw [h]
  · rw [h]
  · rw [h]

/-- Witness of C21 at the sample solver: recording constraint 0 leaves direction 1 and the
product of direction 1 with itself unchanged. -/
theorem C21_record_frame_witness :
    (1 : Nat) ≠ 0 ∧
    (SetConstrDerivative (sample ℚ) 0).DConsVec 1 = (sample ℚ).DConsVec 1 ∧
    MultiplyConstrDerivative id (SetConstrDerivative (sample ℚ) 0) 1 1
      = MultiplyConstrDerivative id (sample ℚ) 1 1 :=
  have h := C21_record_frame id (sample ℚ) 0 1 1 (by decide) (by decide)
  ⟨by decide, h.1, h.2.1⟩

/-! ## Arithmetic of `XDouble` on finite values -/

namespace XDouble

variable {α : Type} [LinearOrderedField α]

theorem min_fin_fin (x y : α) : min (fin x) (fin y) = fin (min x y) := by
  show stdMin (fin x) (fin y) = _
  unfold stdMin lt
  by_cases h : y < x
  · simp [h, min_eq_right (le_of_lt h)]
  · simp [h, min_eq_left (not_lt.mp h)]

theorem max_fin_fin (x y : α) : max (fin x) (fin y) = fin (max x y) := by
  show stdMax (fin x) (fin y) = _
  unfold stdMax lt
  by_cases h : x < y
  · simp [h, max_eq_right (le_of_lt h)]
  · simp [h, max_eq_left (not_lt.mp h)]

theorem min_posInf_fin (y : α) : min (posInf : XDouble α) (fin y) = fin y := rfl

theorem min_negInf_fin (y : α) : min (negInf : XDouble α) (fin y) = negInf := rfl

theorem max_negInf_fin (y : α) : max (negInf : XDouble α) (fin y) = fin y := rfl

theorem min_nan (b : XDouble α) : min (nan : XDouble α) b = nan := by
  show stdMin nan b = _
  cases b <;> rfl

theorem max_nan (b : XDouble α) : max (nan : XDouble α) b = nan := by
  show stdMax nan b = _
  cases b <;> rfl

theorem sub_fin_fin (x y : α) : fin x - fin y = fin (x - y) := rfl

theorem mul_fin_fin (x y : α) : fin x * fin y = fin (x * y) := rfl

theorem div_fin_fin (x y : α) (h : y ≠ 0) : fin x / fin y = fin (x / y) := by
  show div (fin x) (fin y) = _
  simp [div, h]

theorem div_fin_zero (x : α) :
    fin x / fin 0 = if 0 < x then posInf else if x < 0 then negInf else nan := by
  show div (fin x) (fin 0) = _
  simp [div]

theorem div_fin_posInf (x : α) : fin x / (posInf : XDouble α) = fin 0 := rfl

theorem div_fin_negInf (x : α) : fin x / (negInf : XDouble α) = fin 0 := rfl

theorem div_fin_nan (x : α) : fin x / (nan : XDouble α) = nan := rfl

theorem lit (m : Nat) (sgn : Bool) (e : Nat) :
    (OfScientific.ofScientific m sgn e : XDouble α) = fin (OfScientific.ofScientific m sgn e) :=
  rfl

/-- The clamp of the source, `max(min(x, 1e9), 1e-9)`, on a finite value. -/
theorem clamp_fin (x : α) :
    max (min (fin x) (1.0E9 : XDouble α)) (1.0E-9 : XDouble α) = fin (clamp x 1e-9 1e9) := by
  rw [lit, lit, min_fin_fin, max_fin_fin, lit_eps, lit_big, clamp, max_comm]

/-- The clamp of the source on `+inf`. -/
theorem clamp_posInf :
    max (min (posInf : XDouble α) (1.0E9 : XDouble α)) (1.0E-9 : XDouble α) = fin 1e9 := by
  rw [lit, lit, min_posInf_fin, max_fin_fin, lit_eps, lit_big, max_eq_left lit_eps_le_big]

/-- The clamp of the source on `-inf`. -/
theorem clamp_negInf :
    max (min (negInf : XDouble α) (1.0E9 : XDouble α)) (1.0E-9 : XDouble α) = fin 1e-9 := by
  rw [lit, lit, min_negInf_fin, max_negInf_fin, lit_eps]

/-- The clamp of the source on NaN. -/
theorem clamp_nan :
    max (min (nan : XDouble α) (1.0E9 : XDouble α)) (1.0E-9 : XDouble α) = nan := by
  rw [min_nan, max_nan]

/-- A clamped finite value lies in `[1e-9, 1e9]`. -/
theorem within_clamp (x : α) : within 1e-9 1e9 (fin (clamp x 1e-9 1e9)) :=
  ⟨le_max_left _ _, max_le lit_eps_le_big (min_le_right _ _)⟩

end XDouble

/-! ## The claims on alpha, beta and gamma, with infinities and NaN -/

/-- The alpha and beta that `CalculateAlphaBetaX` writes for finite rho and theta. -/
theorem CalculateAlphaBetaX_fin {α : Type} [LinearOrderedField α] (s : COneShotSolver (XDouble α)) (config : CConfig (XDouble α))
    (ρ θ : α) (hρ : s.rho = XDouble.fin ρ) (hθ : s.theta = XDouble.fin θ) :
    (CalculateAlphaBetaX s config).GetOneShotAlpha
      = max (min (XDouble.fin (2 * θ) / XDouble.fin ((1 - ρ) * (1 - ρ))) 1.0E9) 1.0E-9 ∧
    (CalculateAlphaBetaX s config).GetOneShotBeta
      = max (min (XDouble.fin 2 / XDouble.fin θ) 1.0E9) 1.0E-9 := by
  constructor
  · simp only [CalculateAlphaBetaX, CConfig.GetOneShotAlpha, CConfig.SetOneShotAlpha,
      CConfig.SetOneShotBeta, hρ, hθ]
    rw [XDouble.lit 2, XDouble.lit 1, XDouble.mul_fin_fin, XDouble.sub_fin_fin,
      XDouble.mul_fin_fin, lit_two, lit_one_dot]
  · simp only [CalculateAlphaBetaX, CConfig.GetOneShotBeta, CConfig.SetOneShotAlpha,
      CConfig.SetOneShotBeta, hθ]
    rw [XDouble.lit 2, lit_two]

/-- C2 (amended): for every finite rho and theta other than `theta = 0` together with
`rho = 1`, `CalculateAlphaBeta` persists `alpha = clamp(2*theta/(1-rho)^2, 1e-9, 1e9)` and
`beta = clamp(2/theta, 1e-9, 1e9)`, a zero denominator giving an infinity before the clamp
(`alpha = 1e9` or `1e-9` by the sign of theta at `rho = 1`, `beta = 1e9` at `theta = 0`), so that
both lie in `[1e-9, 1e9]`. -/
theorem C2_alpha_beta_finite {α : Type} [LinearOrderedField α] (s : COneShotSolver (XDouble α)) (config : CConfig (XDouble α))
    (ρ θ : α) (hρ : s.rho = XDouble.fin ρ) (hθ : s.theta = XDouble.fin θ)
    (h : ¬ (θ = 0 ∧ ρ = 1)) :
    (ρ ≠ 1 → (CalculateAlphaBetaX s config).GetOneShotAlpha
        = XDouble.fin (clamp (2 * θ / (1 - ρ) ^ 2) 1e-9 1e9)) ∧
    (ρ = 1 → (CalculateAlphaBetaX s config).GetOneShotAlpha
        = XDouble.fin (if 0 < θ then 1e9 else 1e-9)) ∧
    (θ ≠ 0 → (CalculateAlphaBetaX s config).GetOneShotBeta
        = XDouble.fin (clamp (2 / θ) 1e-9 1e9)) ∧
    (θ = 0 → (CalculateAlphaBetaX s config).GetOneShotBeta = XDouble.fin 1e9) ∧
    XDouble.within 1e-9 1e9 (CalculateAlphaBetaX s config).GetOneShotAlpha ∧
    XDouble.within 1e-9 1e9 (CalculateAlphaBetaX s config).GetOneShotBeta := by
  obtain ⟨hA, hB⟩ := CalculateAlphaBetaX_fin s config ρ θ hρ hθ
  have a1 : ρ ≠ 1 → (CalculateAlphaBetaX s config).GetOneShotAlpha
      = XDouble.fin (clamp (2 * θ / (1 - ρ) ^ 2) 1e-9 1e9) := by
    intro h1
    have hd : (1 - ρ) * (1 - ρ) ≠ 0 := mul_ne_zero (sub_ne_zero.mpr (Ne.symm h1))
      (sub_ne_zero.mpr (Ne.symm h1))
    rw [hA, XDouble.div_fin_fin _ _ hd, XDouble.clamp_fin, pow_two]
  have a2 : ρ = 1 → (CalculateAlphaBetaX s config).GetOneShotAlpha
      = XDouble.fin (if 0 < θ then 1e9 else 1e-9) := by
    intro h1
    have hθ0 : θ ≠ 0 := fun h0 => h ⟨h0, h1⟩
    rw [hA, h1, sub_self, mul_zero, XDouble.div_fin_zero]
    rcases lt_or_gt_of_ne hθ0 with hneg | hpos
    · have h2 : ¬ (0 : α) < 2 * θ := by linarith
      have h3 : (2 : α) * θ < 0 := by linarith
      have h4 : ¬ (0 : α) < θ := by linarith
      rw [if_neg h2, if_pos h3, XDouble.clamp_negInf, if_neg h4]
    · have h2 : (0 : α) < 2 * θ := by linarith
      rw [if_pos h2, XDouble.clamp_posInf, if_pos hpos]
  have b1 : θ ≠ 0 → (CalculateAlphaBetaX s config).GetOneShotBeta
      = XDouble.fin (clamp (2 / θ) 1e-9 1e9) := by
    intro h0
    rw [hB, XDouble.div_fin_fin _ _ h0, XDouble.clamp_fin]
  have b2 : θ = 0 → (CalculateAlphaBetaX s config).GetOneShotBeta = XDouble.fin 1e9 := by
    intro h0
    rw [hB, h0, XDouble.div_fin_zero, if_pos (by norm_num : (0 : α) < 2), XDouble.clamp_posInf]
  refine ⟨a1, a2, b1, b2, ?_, ?_⟩
  · by_cases h1 : ρ = 1
    · rw [a2 h1]
      by_cases hp : 0 < θ
      · rw [if_pos hp]; exact ⟨lit_eps_le_big, le_refl _⟩
      · rw [if_neg hp]; exact ⟨le_refl _, lit_eps_le_big⟩
    · rw [a1 h1]; exact XDouble.within_clamp _
  · by_cases h0 : θ = 0
    · rw [b2 h0]; exact ⟨lit_eps_le_big, le_refl _⟩
    · rw [b1 h0]; exact XDouble.within_clamp _

/-- C2 fails as stated: for a NaN theta (the value `CalculateRhoTheta` leaves when the primal
DeltaStore norm is zero) `CalculateAlphaBeta` persists NaN for alpha and for beta, and for
`theta = 0` with `rho = 1` it persists NaN for alpha (`0/0`); NaN is not in `[1e-9, 1e9]`. -/
theorem C2_alpha_beta_nan_counterexample :
    (CalculateAlphaBetaX { (sample ℚ).toX with theta := XDouble.nan }
        (sampleConfig ℚ).toX).GetOneShotAlpha = XDouble.nan ∧
    (CalculateAlphaBetaX { (sample ℚ).toX with theta := XDouble.nan }
        (sampleConfig ℚ).toX).GetOneShotBeta = XDouble.nan ∧
    ¬ XDouble.within 1e-9 1e9 (CalculateAlphaBetaX { (sample ℚ).toX with theta := XDouble.nan }
        (sampleConfig ℚ).toX).GetOneShotBeta ∧
    (CalculateAlphaBetaX { (sample ℚ).toX with theta := XDouble.fin 0, rho := XDouble.fin 1 }
        (sampleConfig ℚ).toX).GetOneShotAlpha = XDouble.nan ∧
    ¬ XDouble.within 1e-9 1e9
      (CalculateAlphaBetaX { (sample ℚ).toX with theta := XDouble.fin 0, rho := XDouble.fin 1 }
        (sampleConfig ℚ).toX).GetOneShotAlpha := by
  have h0 : (CalculateAlphaBetaX
      { (sample ℚ).toX with theta := XDouble.fin 0, rho := XDouble.fin 1 }
        (sampleConfig ℚ).toX).GetOneShotAlpha = XDouble.nan := by
    rw [(CalculateAlphaBetaX_fin _ _ 1 0 rfl rfl).1]
    norm_num [XDouble.div_fin_zero, XDouble.clamp_nan]
  refine ⟨rfl, rfl, fun h => h, h0, ?_⟩
  rw [h0]
  exact fun h => h
/-- Witness of C2 (amended) at the sample solver with `theta = 0` (and `rho = 0`): beta is
`1e9`. -/
theorem C2_alpha_beta_finite_witness :
    ¬ ((0 : ℚ) = 0 ∧ (0 : ℚ) = 1) ∧
    (CalculateAlphaBetaX { (sample ℚ).toX with theta := XDouble.fin 0 }
        (sampleConfig ℚ).toX).GetOneShotBeta = XDouble.fin 1e9 ∧
    XDouble.within 1e-9 1e9 (CalculateAlphaBetaX { (sample ℚ).toX with theta := XDouble.fin 0 }
        (sampleConfig ℚ).toX).GetOneShotAlpha :=
  have h : ¬ ((0 : ℚ) = 0 ∧ (0 : ℚ) = 1) := by norm_num
  have t := C2_alpha_beta_finite { (sample ℚ).toX with theta := XDouble.fin 0 }
    (sampleConfig ℚ).toX 0 0 rfl rfl h
  ⟨h, t.2.2.2.1 rfl, t.2.2.2.2.1⟩

/-- A loop whose body ignores the counter applies the body `n` times. -/
theorem forLoop_const {σ : Type} (f : σ → σ) (n : Nat) (c : σ) :
    forLoop n (fun _ t => f t) c = f^[n] c := by
  induction n with
  | zero => rfl
  | succ k ih => rw [forLoop_succ, ih, Function.iterate_succ_apply']

/-- The value that `CalculateGamma` hands to the setter (lines 351 and 364). -/
theorem gamma_value {α : Type} [LinearOrderedField α] (b : XDouble α) :
    (∀ x : α, b = XDouble.fin x → x ≠ 0 →
      max (min (1.01 / b) 1.0E9) (1.0E-9 : XDouble α) = XDouble.fin (clamp (1.01 / x) 1e-9 1e9)) ∧
    (b = XDouble.fin 0 → max (min (1.01 / b) 1.0E9) (1.0E-9 : XDouble α) = XDouble.fin 1e9) ∧
    (b = XDouble.nan → max (min (1.01 / b) 1.0E9) (1.0E-9 : XDouble α) = XDouble.nan) ∧
    (b ≠ XDouble.nan → XDouble.within 1e-9 1e9 (max (min (1.01 / b) 1.0E9) (1.0E-9 : XDouble α))) := by
  have e1 : ∀ x : α, x ≠ 0 → max (min (1.01 / XDouble.fin x) 1.0E9) (1.0E-9 : XDouble α)
      = XDouble.fin (clamp (1.01 / x) 1e-9 1e9) := by
    intro x hx
    rw [XDouble.lit 101, XDouble.div_fin_fin _ _ hx, XDouble.clamp_fin]
  have e2 : max (min (1.01 / XDouble.fin (0 : α)) 1.0E9) (1.0E-9 : XDouble α) = XDouble.fin 1e9 := by
    rw [XDouble.lit 101, XDouble.div_fin_zero, if_pos (by norm_num), XDouble.clamp_posInf]
  refine ⟨fun x hb hx => by rw [hb]; exact e1 x hx, fun hb => by rw [hb]; exact e2,
    fun hb => by rw [hb, XDouble.lit 101, XDouble.div_fin_nan, XDouble.clamp_nan], fun hb => ?_⟩
  cases b with
  | fin x =>
    by_cases hx : x = 0
    · rw [hx, e2]; exact ⟨lit_eps_le_big, le_refl _⟩
    · rw [e1 x hx]; exact XDouble.within_clamp _
  | posInf =>
    rw [XDouble.lit 101, XDouble.div_fin_posInf, XDouble.clamp_fin]; exact XDouble.within_clamp _
  | negInf =>
    rw [XDouble.lit 101, XDouble.div_fin_negInf, XDouble.clamp_fin]; exact XDouble.within_clamp _
  | nan => exact absurd rfl hb

/-- C3 (amended): for every `bcheckNorm` that is not NaN, every constraint-value array and every
lambda array, `CalculateGamma` computes one value `gamma = clamp(1.01/bcheckNorm, 1e-9, 1e9)`,
with `1.01/0 = +inf` and so `gamma = 1e9` at `bcheckNorm = 0`; it lies in `[1e-9, 1e9]` and does
not depend on the constraint index, the constraint values or lambda.  The routine hands it
`nConstr` times to the setter `SetOneShotGamma(gamma)`, which takes no constraint index; every
constraint `i < nConstr` holds it afterwards when that setter stores its argument for every
constraint. -/
theorem C3_gamma_one_value {α : Type} [LinearOrderedField α] (setGamma : CConfig (XDouble α) → XDouble α → CConfig (XDouble α))
    (s : COneShotSolver (XDouble α)) (config : CConfig (XDouble α)) (bcheckNorm : XDouble α)
    (constrFunc lam : Nat → XDouble α) (i : Nat) (hi : i < s.nConstr)
    (hb : bcheckNorm ≠ XDouble.nan) :
    CalculateGamma setGamma s config bcheckNorm constrFunc lam
      = (fun c => setGamma c (max (min (1.01 / bcheckNorm) 1.0E9) 1.0E-9))^[s.nConstr] config ∧
    (∀ constrFunc2 lam2 : Nat → XDouble α,
      CalculateGamma setGamma s config bcheckNorm constrFunc2 lam2
        = CalculateGamma setGamma s config bcheckNorm constrFunc lam) ∧
    XDouble.within 1e-9 1e9 (max (min (1.01 / bcheckNorm) 1.0E9) 1.0E-9) ∧
    (∀ x : α, bcheckNorm = XDouble.fin x → x ≠ 0 →
      max (min (1.01 / bcheckNorm) 1.0E9) (1.0E-9 : XDouble α)
        = XDouble.fin (clamp (1.01 / x) 1e-9 1e9)) ∧
    (bcheckNorm = XDouble.fin 0 →
      max (min (1.01 / bcheckNorm) 1.0E9) (1.0E-9 : XDouble α) = XDouble.fin 1e9) ∧
    (CalculateGamma CConfig.SetOneShotGammaAll s config bcheckNorm constrFunc lam).GetOneShotGamma i
      = max (min (1.01 / bcheckNorm) 1.0E9) 1.0E-9 := by
  obtain ⟨g1, g2, _, g4⟩ := gamma_value bcheckNorm
  refine ⟨forLoop_const _ _ _, fun _ _ => rfl, g4 hb, g1, g2, ?_⟩
  unfold CalculateGamma
  obtain ⟨k, hk⟩ : ∃ k, s.nConstr = k + 1 := ⟨s.nConstr - 1, by omega⟩
  rw [hk, forLoop_succ]
  rfl

/-- C3 fails as stated: for a NaN `bcheckNorm` the persisted gamma is NaN, outside
`[1e-9, 1e9]`, even when the setter stores it for every constraint; and the call carries no
constraint index, so with a setter that stores its argument as the gamma of constraint `0` the
gamma of constraint `1 < nConstr` keeps its old value `1` instead of `clamp(1.01/2)`. -/
theorem C3_gamma_counterexample :
    (CalculateGamma CConfig.SetOneShotGammaAll (sample ℚ).toX (sampleConfig ℚ).toX XDouble.nan
        (fun _ => XDouble.fin 0) (fun _ => XDouble.fin 0)).GetOneShotGamma 1 = XDouble.nan ∧
    ¬ XDouble.within 1e-9 1e9
      ((CalculateGamma CConfig.SetOneShotGammaAll (sample ℚ).toX (sampleConfig ℚ).toX XDouble.nan
        (fun _ => XDouble.fin 0) (fun _ => XDouble.fin 0)).GetOneShotGamma 1) ∧
    (1 < (sample ℚ).toX.nConstr ∧
     (CalculateGamma CConfig.SetOneShotGammaFirst (sample ℚ).toX (sampleConfig ℚ).toX
        (XDouble.fin 2) (fun _ => XDouble.fin 0) (fun _ => XDouble.fin 0)).GetOneShotGamma 1
      = XDouble.fin 1 ∧
     XDouble.fin (clamp (1.01 / 2) 1e-9 1e9) ≠ (XDouble.fin 1 : XDouble ℚ)) := by
  refine ⟨rfl, fun h => h, by decide, rfl, ?_⟩
  intro h
  injection h with h
  norm_num [clamp] at h
/-- Witness of C3 (amended) at the sample solver, constraint index 1, `bcheckNorm = 0`. -/
theorem C3_gamma_one_value_witness :
    1 < (sample ℚ).toX.nConstr ∧ (XDouble.fin 0 : XDouble ℚ) ≠ XDouble.nan ∧
    (CalculateGamma CConfig.SetOneShotGammaAll (sample ℚ).toX (sampleConfig ℚ).toX
        (XDouble.fin 0) (fun _ => XDouble.fin 0) (fun _ => XDouble.fin 0)).GetOneShotGamma 1
      = max (min (1.01 / XDouble.fin 0) 1.0E9) 1.0E-9 ∧
    max (min (1.01 / XDouble.fin 0) 1.0E9) (1.0E-9 : XDouble ℚ) = XDouble.fin 1e9 :=
  have hb : (XDouble.fin 0 : XDouble ℚ) ≠ XDouble.nan := fun h => XDouble.noConfusion h
  have t := C3_gamma_one_value CConfig.SetOneShotGammaAll (sample ℚ).toX (sampleConfig ℚ).toX
    (XDouble.fin 0) (fun _ => XDouble.fin 0) (fun _ => XDouble.fin 0) 1 (by decide) hb
  ⟨by decide, hb, t.2.2.2.2.2, t.2.2.2.2.1 rfl⟩

/-! ## Rounding lemmas -/

theorem ulp64_eq {x : ℚ} (e : ℤ) (h1 : 2 ^ e ≤ |x|) (h2 : |x| < 2 ^ (e + 1)) :
    ulp64 x = 2 ^ (max e (-1022) - 52) := by
  have hpos : 0 < |x| := lt_of_lt_of_le (by positivity) h1
  have hlog : Int.log 2 |x| = e := by
    have a : e ≤ Int.log 2 |x| :=
      (Int.zpow_le_iff_le_log (by norm_num) hpos).mp (by exact_mod_cast h1)
    have b : Int.log 2 |x| < e + 1 :=
      (Int.lt_zpow_iff_log_lt (by norm_num) hpos).mp (by exact_mod_cast h2)
    omega
  rw [ulp64, hlog]

theorem roundHalfEven_intCast (n : ℤ) : roundHalfEven (n : ℚ) = n := by
  simp [roundHalfEven]

theorem roundHalfEven_eq_of_lt {y : ℚ} (f : ℤ) (h1 : (f : ℚ) ≤ y) (h2 : y - f < 1 / 2) :
    roundHalfEven y = f := by
  have hf : ⌊y⌋ = f := Int.floor_eq_iff.mpr ⟨h1, by linarith⟩
  unfold roundHalfEven
  rw [hf, if_pos h2]

theorem roundHalfEven_tie_even {y : ℚ} (f : ℤ) (h : y = f + 1 / 2) (he : f % 2 = 0) :
    roundHalfEven y = f := by
  have hf : ⌊y⌋ = f := Int.floor_eq_iff.mpr ⟨by rw [h]; linarith, by rw [h]; linarith⟩
  have hd : y - f = 1 / 2 := by rw [h]; ring
  unfold roundHalfEven
  rw [hf, hd, if_neg (lt_irrefl _), if_neg (lt_irrefl _), if_pos he]

theorem roundHalfEven_tie_odd {y : ℚ} (f : ℤ) (h : y = f + 1 / 2) (he : f % 2 = 1) :
    roundHalfEven y = f + 1 := by
  have hf : ⌊y⌋ = f := Int.floor_eq_iff.mpr ⟨by rw [h]; linarith, by rw [h]; linarith⟩
  have hd : y - f = 1 / 2 := by rw [h]; ring
  have hne : ¬ f % 2 = 0 := by omega
  unfold roundHalfEven
  rw [hf, hd, if_neg (lt_irrefl _), if_neg (lt_irrefl _), if_neg hne]

theorem binary64_zero : binary64 0 = 0 := by
  simp [binary64, roundHalfEven]

/-- A number that is an integer multiple of its spacing is a double: rounding keeps it. -/
theorem binary64_of_multiple {x : ℚ} (e : ℤ) (m : ℤ) (h1 : 2 ^ e ≤ |x|) (h2 : |x| < 2 ^ (e + 1))
    (hm : x = m * 2 ^ (max e (-1022) - 52)) : binary64 x = x := by
  have hu := ulp64_eq e h1 h2
  have hq : x / ulp64 x = (m : ℚ) := by
    rw [hu, hm, mul_div_assoc, div_self (by positivity), mul_one]
  rw [binary64, hq, roundHalfEven_intCast, hu, ← hm]

theorem binary64_one : binary64 1 = 1 :=
  binary64_of_multiple 0 (2 ^ 52) (by norm_num) (by norm_num) (by norm_num)

theorem binary64_two_pow_54 : binary64 (2 ^ 54) = 2 ^ 54 :=
  binary64_of_multiple 54 (2 ^ 52) (by norm_num) (by norm_num) (by norm_num)

theorem binary64_neg_two_pow_54 : binary64 (-2 ^ 54) = -2 ^ 54 :=
  binary64_of_multiple 54 (-2 ^ 52) (by norm_num) (by norm_num) (by norm_num)

/-- The difference `1 - 2 ^ 54` needs 54 bits; it lies half-way between two doubles and rounds
to `-2 ^ 54`. -/
theorem binary64_one_sub_two_pow_54 : binary64 (1 - 2 ^ 54) = -2 ^ 54 := by
  have hu : ulp64 (1 - 2 ^ 54) = 2 := by
    rw [ulp64_eq 53 (by norm_num [abs_of_neg]) (by norm_num [abs_of_neg])]
    norm_num
  rw [binary64, hu, roundHalfEven_tie_even (-2 ^ 53) (by norm_num) (by norm_num)]
  norm_num

/-- The product `(2 ^ 27 + 1) * (2 ^ 27 - 1) = 2 ^ 54 - 1` lies half-way between two doubles and
rounds up to `2 ^ 54`. -/
theorem binary64_two_pow_54_sub_one : binary64 (2 ^ 54 - 1) = 2 ^ 54 := by
  have hu : ulp64 (2 ^ 54 - 1) = 2 := by
    rw [ulp64_eq 53 (by norm_num) (by norm_num)]
    norm_num
  rw [binary64, hu, roundHalfEven_tie_odd (2 ^ 53 - 1) (by norm_num) (by norm_num)]
  norm_num

/-- The square `(2 ^ 27 + 1) ^ 2 = 2 ^ 54 + 2 ^ 28 + 1` rounds down to `2 ^ 54 + 2 ^ 28`. -/
theorem binary64_sq_plus : binary64 (2 ^ 54 + 2 ^ 28 + 1) = 2 ^ 54 + 2 ^ 28 := by
  have hu : ulp64 (2 ^ 54 + 2 ^ 28 + 1) = 4 := by
    rw [ulp64_eq 54 (by norm_num) (by norm_num)]
    norm_num
  rw [binary64, hu, roundHalfEven_eq_of_lt (2 ^ 52 + 2 ^ 26) (by norm_num) (by norm_num)]
  norm_num

/-- The square `(2 ^ 27 - 1) ^ 2 = 2 ^ 54 - 2 ^ 28 + 1` lies half-way between two doubles and
rounds down to `2 ^ 54 - 2 ^ 28`. -/
theorem binary64_sq_minus : binary64 (2 ^ 54 - 2 ^ 28 + 1) = 2 ^ 54 - 2 ^ 28 := by
  have hu : ulp64 (2 ^ 54 - 2 ^ 28 + 1) = 2 := by
    rw [ulp64_eq 53 (by norm_num) (by norm_num)]
    norm_num
  rw [binary64, hu, roundHalfEven_tie_even (2 ^ 53 - 2 ^ 27) (by norm_num) (by norm_num)]
  norm_num

theorem binary64_plus : binary64 (2 ^ 54 + 2 ^ 28) = 2 ^ 54 + 2 ^ 28 :=
  binary64_of_multiple 54 (2 ^ 52 + 2 ^ 26) (by norm_num) (by norm_num) (by norm_num)

theorem binary64_minus : binary64 (2 ^ 54 - 2 ^ 28) = 2 ^ 54 - 2 ^ 28 :=
  binary64_of_multiple 53 (2 ^ 53 - 2 ^ 27) (by norm_num) (by norm_num) (by norm_num)

theorem binary64_dir_plus : binary64 (2 ^ 27 + 1) = 2 ^ 27 + 1 :=
  binary64_of_multiple 27 ((2 ^ 27 + 1) * 2 ^ 25) (by norm_num) (by norm_num) (by norm_num)

theorem binary64_dir_minus : binary64 (2 ^ 27 - 1) = 2 ^ 27 - 1 :=
  binary64_of_multiple 26 ((2 ^ 27 - 1) * 2 ^ 26) (by norm_num) (by norm_num) (by norm_num)

theorem binary64_tiny : binary64 (2 ^ (-600 : ℤ)) = 2 ^ (-600 : ℤ) :=
  binary64_of_multiple (-600) (2 ^ 52) (by rw [abs_of_pos (by positivity)])
    (by rw [abs_of_pos (by positivity)]; exact zpow_lt_zpow_right₀ (by norm_num) (by norm_num))
    (by
      have : max (-600 : ℤ) (-1022) - 52 = -652 := by norm_num
      rw [this]
      have h2 : ((2 ^ 52 : ℤ) : ℚ) = 2 ^ (52 : ℤ) := by norm_num
      rw [h2, ← zpow_add₀ (by norm_num)]
      norm_num)

/-- The square of `2 ^ (-600)` is below half the smallest subnormal and rounds to `0`. -/
theorem binary64_tiny_sq : binary64 (2 ^ (-600 : ℤ) * 2 ^ (-600 : ℤ)) = 0 := by
  have hx : ((2 : ℚ) ^ (-600 : ℤ)) * (2 ^ (-600 : ℤ)) = 2 ^ (-1200 : ℤ) := by
    rw [← zpow_add₀ (by norm_num)]; norm_num
  rw [hx]
  have hu : ulp64 (2 ^ (-1200 : ℤ)) = 2 ^ (-1074 : ℤ) := by
    rw [ulp64_eq (-1200) (by rw [abs_of_pos (by positivity)])
      (by rw [abs_of_pos (by positivity)]; exact zpow_lt_zpow_right₀ (by norm_num) (by norm_num))]
    norm_num
  rw [binary64, hu, roundHalfEven_eq_of_lt 0 (by positivity) ?_]
  · simp
  · rw [← zpow_sub₀ (by norm_num)]
    norm_num

theorem ulp64_pos (x : ℚ) : 0 < ulp64 x := by
  unfold ulp64
  positivity

theorem roundHalfEven_nonneg {y : ℚ} (hy : 0 ≤ y) : 0 ≤ roundHalfEven y := by
  have hf : 0 ≤ ⌊y⌋ := Int.floor_nonneg.mpr hy
  unfold roundHalfEven
  split_ifs <;> omega

/-- Rounding keeps the sign of a non-negative number. -/
theorem binary64_nonneg {x : ℚ} (hx : 0 ≤ x) : 0 ≤ binary64 x := by
  unfold binary64
  have h1 : 0 ≤ roundHalfEven (x / ulp64 x) :=
    roundHalfEven_nonneg (div_nonneg hx (le_of_lt (ulp64_pos x)))
  exact mul_nonneg (by exact_mod_cast h1) (le_of_lt (ulp64_pos x))

/-- A property kept by every iteration with index below the bound holds after the loop. -/
theorem forLoop_invariant {σ : Type} (P : σ → Prop) (n : Nat) (body : Nat → σ → σ) (s : σ)
    (h0 : P s) (hstep : ∀ i, i < n → ∀ t, P t → P (body i t)) : P (forLoop n body s) := by
  induction n with
  | zero => exact h0
  | succ k ih =>
    rw [forLoop_succ]
    exact hstep k (Nat.lt_succ_self k) _
      (ih (fun i hi t ht => hstep i (Nat.lt_succ_of_lt hi) t ht))

/-! ## The claims that depend on rounding -/

/-- The state after the first `j` iterations of the inner loop of `LoadStepSolutionFl` at the
point `i`. -/
theorem LoadStepSolutionFl_inner {α : Type} [LinearOrderedField α] (fl : α → α) (stepsize : α) (i : Nat)
    (t : COneShotSolver α) (j : Nat) :
    forLoop j (fun iVar t =>
      let dy := fl (t.direct_nodes.GetSolution_Save i iVar
                  - t.direct_nodes.GetSolution_Store i iVar)
      let dbary := fl (t.nodes.GetSolution_Save i iVar - t.nodes.GetSolution_Store i iVar)
      let t1 := { t with direct_nodes := (t.direct_nodes.SetSolution i iVar
                    (fl (t.direct_nodes.GetSolution_Store i iVar + fl (stepsize * dy)))) }
      { t1 with nodes := (t1.nodes.SetSolution i iVar
                    (fl (t1.nodes.GetSolution_Store i iVar + fl (stepsize * dbary)))) }) t
    = { t with
        direct_nodes := { t.direct_nodes with
          Solution := fun p v =>
            if p = i ∧ v < j then
              fl (t.direct_nodes.Solution_Store p v + fl (stepsize
                * fl (t.direct_nodes.Solution_Save p v - t.direct_nodes.Solution_Store p v)))
            else t.direct_nodes.Solution p v }
        nodes := { t.nodes with
          Solution := fun p v =>
            if p = i ∧ v < j then
              fl (t.nodes.Solution_Store p v + fl (stepsize
                * fl (t.nodes.Solution_Save p v - t.nodes.Solution_Store p v)))
            else t.nodes.Solution p v } } := by
  induction j with
  | zero => simp [forLoop]
  | succ k ih =>
    rw [forLoop_succ, ih]
    simp only [CVariable.SetSolution, CVariable.GetSolution_Save, CVariable.GetSolution_Store]
    congr 2 <;> funext p v <;> by_cases hp : p = i <;> by_cases hv : v = k <;>
      simp [hp, hv, set2, Nat.lt_succ_iff_lt_or_eq]

/-- The state after the first `n` iterations of the outer loop of `LoadStepSolutionFl`. -/
theorem LoadStepSolutionFl_loop {α : Type} [LinearOrderedField α] (fl : α → α) (stepsize : α) (s : COneShotSolver α)
    (m n : Nat) :
    forLoop n (fun iPoint t =>
      forLoop m (fun iVar t =>
        let dy := fl (t.direct_nodes.GetSolution_Save iPoint iVar
                    - t.direct_nodes.GetSolution_Store iPoint iVar)
        let dbary := fl (t.nodes.GetSolution_Save iPoint iVar
                    - t.nodes.GetSolution_Store iPoint iVar)
        let t1 := { t with direct_nodes := (t.direct_nodes.SetSolution iPoint iVar
                      (fl (t.direct_nodes.GetSolution_Store iPoint iVar + fl (stepsize * dy)))) }
        { t1 with nodes := (t1.nodes.SetSolution iPoint iVar
                      (fl (t1.nodes.GetSolution_Store iPoint iVar + fl (stepsize * dbary)))) }) t) s
    = { s with
        direct_nodes := { s.direct_nodes with
          Solution := fun p v =>
            if p < n ∧ v < m then
              fl (s.direct_nodes.Solution_Store p v + fl (stepsize
                * fl (s.direct_nodes.Solution_Save p v - s.direct_nodes.Solution_Store p v)))
            else s.direct_nodes.Solution p v }
        nodes := { s.nodes with
          Solution := fun p v =>
            if p < n ∧ v < m then
              fl (s.nodes.Solution_Store p v + fl (stepsize
                * fl (s.nodes.Solution_Save p v - s.nodes.Solution_Store p v)))
            else s.nodes.Solution p v } } := by
  induction n with
  | zero => simp [forLoop]
  | succ k ih =>
    rw [forLoop_succ, ih, LoadStepSolutionFl_inner]
    dsimp only
    congr 2 <;> funext p v <;> by_cases hp : p = k <;> by_cases hv : v < m <;>
      simp [hp, hv, Nat.lt_succ_iff_lt_or_eq]

/-- With `fl = id` the rounded routine is the routine in exact arithmetic. -/
theorem LoadStepSolutionFl_id {α : Type} [LinearOrderedField α] (s : COneShotSolver α) (stepsize : α) :
    LoadStepSolutionFl id s stepsize = LoadStepSolution s stepsize := rfl

/-- C10 (amended): `LoadStepSolution(stepSize)` sets, at every point `p < nPoint` and variable
`v < nVar`, `current = Store + stepSize * (Save - Store)` as the arithmetic of `su2double`
evaluates it (every result rounded by `fl`), for the primal and for the design state, and leaves
the Store and Save slots unchanged; `LoadStepSolution(0)` makes the current state there equal to
the Store state (for a rounding with `fl 0 = 0` that keeps the stored numbers);
`LoadStepSolution(1)` yields `Store + (Save - Store)`, which is the Save state in exact
arithmetic. -/
theorem C10_load_step_rounded {α : Type} [LinearOrderedField α] (fl : α → α) (s : COneShotSolver α) (stepSize : α)
    (p v : Nat) (hp : p < s.nPoint) (hv : v < s.nVar) (h0 : fl 0 = 0)
    (hy : fl (s.direct_nodes.Solution_Store p v) = s.direct_nodes.Solution_Store p v)
    (hbary : fl (s.nodes.Solution_Store p v) = s.nodes.Solution_Store p v) :
    ((LoadStepSolutionFl fl s stepSize).direct_nodes.Solution p v
        = fl (s.direct_nodes.Solution_Store p v + fl (stepSize
            * fl (s.direct_nodes.Solution_Save p v - s.direct_nodes.Solution_Store p v))) ∧
     (LoadStepSolutionFl fl s stepSize).nodes.Solution p v
        = fl (s.nodes.Solution_Store p v + fl (stepSize
            * fl (s.nodes.Solution_Save p v - s.nodes.Solution_Store p v)))) ∧
    ((LoadStepSolutionFl fl s stepSize).direct_nodes.Solution_Store = s.direct_nodes.Solution_Store ∧
     (LoadStepSolutionFl fl s stepSize).direct_nodes.Solution_Save = s.direct_nodes.Solution_Save ∧
     (LoadStepSolutionFl fl s stepSize).nodes.Solution_Store = s.nodes.Solution_Store ∧
     (LoadStepSolutionFl fl s stepSize).nodes.Solution_Save = s.nodes.Solution_Save) ∧
    ((LoadStepSolutionFl fl s 0).direct_nodes.Solution p v = s.direct_nodes.Solution_Store p v ∧
     (LoadStepSolutionFl fl s 0).nodes.Solution p v = s.nodes.Solution_Store p v) ∧
    ((LoadStepSolution s stepSize).direct_nodes.Solution p v
        = s.direct_nodes.Solution_Store p v
          + stepSize * (s.direct_nodes.Solution_Save p v - s.direct_nodes.Solution_Store p v) ∧
     (LoadStepSolution s stepSize).nodes.Solution p v
        = s.nodes.Solution_Store p v
          + stepSize * (s.nodes.Solution_Save p v - s.nodes.Solution_Store p v) ∧
     (LoadStepSolution s 1).direct_nodes.Solution p v = s.direct_nodes.Solution_Save p v ∧
     (LoadStepSolution s 1).nodes.Solution p v = s.nodes.Solution_Save p v) := by
  have key : ∀ (g : α → α) (c : α), LoadStepSolutionFl g s c = _ :=
    fun g c => LoadStepSolutionFl_loop g c s s.nVar s.nPoint
  have keyE : ∀ c : α, LoadStepSolution s c = _ :=
    fun c => LoadStepSolution_loop c s s.nVar s.nPoint
  rw [key fl stepSize, key fl 0, keyE stepSize, keyE 1]
  refine ⟨⟨?_, ?_⟩, ⟨rfl, rfl, rfl, rfl⟩, ⟨?_, ?_⟩, ⟨?_, ?_, ?_, ?_⟩⟩ <;>
    simp [hp, hv, h0, hy, hbary]

/-- C10 fails as stated: in double precision, with `Store = 2 ^ 54` and `Save = 1` (both
doubles), `Save - Store` rounds to `-2 ^ 54` and `LoadStepSolution(1)` leaves the current value
`0`, not the Save value `1`. -/
theorem C10_load_step_counterexample :
    binary64 (stepState.direct_nodes.Solution_Store 0 0) = stepState.direct_nodes.Solution_Store 0 0 ∧
    binary64 (stepState.direct_nodes.Solution_Save 0 0) = stepState.direct_nodes.Solution_Save 0 0 ∧
    (LoadStepSolutionFl binary64 stepState 1).direct_nodes.Solution 0 0 = 0 ∧
    stepState.direct_nodes.Solution_Save 0 0 = 1 ∧
    (LoadStepSolutionFl binary64 stepState 1).direct_nodes.Solution 0 0
      ≠ stepState.direct_nodes.Solution_Save 0 0 := by
  have h : (LoadStepSolutionFl binary64 stepState 1).direct_nodes.Solution 0 0 = 0 := by
    simp only [LoadStepSolutionFl, stepState, forLoop, CVariable.SetSolution,
      CVariable.GetSolution_Save, CVariable.GetSolution_Store, set2, and_self, if_true, one_mul]
    rw [binary64_one_sub_two_pow_54, binary64_neg_two_pow_54]
    norm_num [binary64_zero]
  refine ⟨binary64_two_pow_54, binary64_one, h, rfl, ?_⟩
  rw [h]
  norm_num [stepState]
/-- Witness of C10 (amended) at the sample solver, point 1, variable 1, step size 1/2, with the
rounding of double precision: the Store values `4` and `2` there are doubles. -/
theorem C10_load_step_rounded_witness :
    1 < (sample ℚ).nPoint ∧ 1 < (sample ℚ).nVar ∧ binary64 0 = 0 ∧
    binary64 ((sample ℚ).direct_nodes.Solution_Store 1 1)
      = (sample ℚ).direct_nodes.Solution_Store 1 1 ∧
    binary64 ((sample ℚ).nodes.Solution_Store 1 1) = (sample ℚ).nodes.Solution_Store 1 1 ∧
    (LoadStepSolutionFl binary64 (sample ℚ) 0).direct_nodes.Solution 1 1
      = (sample ℚ).direct_nodes.Solution_Store 1 1 :=
  have e1 : (sample ℚ).direct_nodes.Solution_Store 1 1 = 4 := by norm_num [sample]
  have e2 : (sample ℚ).nodes.Solution_Store 1 1 = 2 := by norm_num [sample]
  have h1 : binary64 ((sample ℚ).direct_nodes.Solution_Store 1 1)
      = (sample ℚ).direct_nodes.Solution_Store 1 1 := by
    rw [e1]
    exact binary64_of_multiple 2 (2 ^ 52) (by norm_num) (by norm_num) (by norm_num)
  have h2 : binary64 ((sample ℚ).nodes.Solution_Store 1 1)
      = (sample ℚ).nodes.Solution_Store 1 1 := by
    rw [e2]
    exact binary64_of_multiple 1 (2 ^ 52) (by norm_num) (by norm_num) (by norm_num)
  ⟨by decide, by decide, binary64_zero, h1, h2,
    (C10_load_step_rounded binary64 (sample ℚ) (1 / 2) 1 1 (by decide) (by decide)
      binary64_zero h1 h2).2.2.1.1⟩

/-- With `fl = id` the rounded routine is the routine in exact arithmetic. -/
theorem MultiplyConstrDerivativeFl_id {α : Type} [LinearOrderedField α] (R : α → α) (s : COneShotSolver α) (i j : Nat) :
    MultiplyConstrDerivativeFl id R s i j = MultiplyConstrDerivative R s i j := rfl

/-- The rounded product of a direction with itself is non-negative. -/
theorem MultiplyConstrDerivativeFl_nonneg {α : Type} [LinearOrderedField α] (fl : α → α) (hnn : ∀ x, 0 ≤ x → 0 ≤ fl x)
    (s : COneShotSolver α) (i : Nat) : 0 ≤ MultiplyConstrDerivativeFl fl id s i i := by
  unfold MultiplyConstrDerivativeFl
  simp only [id]
  refine forLoop_invariant (fun a => 0 ≤ a) _ _ _ (by rw [lit_zero]) (fun p _ a ha => ?_)
  refine forLoop_invariant (fun a => 0 ≤ a) _ _ _ ha (fun v _ b hb => ?_)
  exact hnn _ (add_nonneg hb (hnn _ (mul_self_nonneg _)))

/-- The rounded product of a direction that vanishes on the locally-owned points is `0`. -/
theorem MultiplyConstrDerivativeFl_zero {α : Type} [LinearOrderedField α] (fl : α → α) (h0 : fl 0 = 0)
    (s : COneShotSolver α) (i : Nat)
    (hz : ∀ p v, p < s.nPointDomain → v < s.nVar → s.DConsVec i p v = 0) :
    MultiplyConstrDerivativeFl fl id s i i = 0 := by
  unfold MultiplyConstrDerivativeFl
  simp only [id]
  refine forLoop_invariant (fun a => a = 0) _ _ _ lit_zero (fun p hp a ha => ?_)
  refine forLoop_invariant (fun a => a = 0) _ _ _ ha (fun v hv b hb => ?_)
  rw [hb, hz p v hp hv, mul_zero, h0, add_zero, h0]

/-- The constructor leaves every direction below `nConstr` zero on the locally-owned points. -/
theorem ctor_DConsVec_zero {α : Type} [LinearOrderedField α] (base : COneShotSolver α) (config : CConfig α) (k : Nat)
    (hk : k < config.GetnConstr) :
    ∀ p v, p < (ctor base config).nPointDomain → v < (ctor base config).nVar →
      (ctor base config).DConsVec k p v = 0 := by
  intro p v hp hv
  have hc : ctor base config = _ :=
    ctor_outer { base with rho := 0.0, rho_old := 1.0, theta := 1.0, theta_old := 1.0
                           nConstr := config.GetnConstr }
      base.nVar base.nPointDomain config.GetnConstr
  rw [hc] at hp hv ⊢
  simp only at hp hv ⊢
  simp [hk, hp, hv]

/-- C20 (amended): on a single process, for every rounding `fl` with `fl 0 = 0` that keeps
non-negative numbers non-negative, `MultiplyConstrDerivative(i, i) ≥ 0`, and it is `0` when
direction `i` is zero at every locally-owned point and variable, in particular for a freshly
constructed solver, whose buffer is zeroed for every constraint index below `nConstr`; in exact
arithmetic it is `0` only then, and `MultiplyConstrDerivative(i, j)^2` is at most
`MultiplyConstrDerivative(i, i) * MultiplyConstrDerivative(j, j)`. -/
theorem C20_gram_rounded {α : Type} [LinearOrderedField α] (fl : α → α) (s : COneShotSolver α) (i j : Nat)
    (base : COneShotSolver α) (config : CConfig α) (k : Nat) (hk : k < config.GetnConstr)
    (h0 : fl 0 = 0) (hnn : ∀ x, 0 ≤ x → 0 ≤ fl x) :
    0 ≤ MultiplyConstrDerivativeFl fl id s i i ∧
    ((∀ p v, p < s.nPointDomain → v < s.nVar → s.DConsVec i p v = 0)
      → MultiplyConstrDerivativeFl fl id s i i = 0) ∧
    MultiplyConstrDerivativeFl fl id (ctor base config) k k = 0 ∧
    (MultiplyConstrDerivative id s i i = 0
      ↔ ∀ p v, p < s.nPointDomain → v < s.nVar → s.DConsVec i p v = 0) ∧
    MultiplyConstrDerivative id s i j ^ 2
      ≤ MultiplyConstrDerivative id s i i * MultiplyConstrDerivative id s j j := by
  have hsq : ∀ (t : COneShotSolver α) (a : Nat), MultiplyConstrDerivative id t a a
      = sumPV t.nPointDomain t.nVar (fun p v => t.DConsVec a p v ^ 2) := by
    intro t a
    rw [MultiplyConstrDerivative_eq]
    simp only [id, pow_two]
  refine ⟨MultiplyConstrDerivativeFl_nonneg fl hnn s i,
    MultiplyConstrDerivativeFl_zero fl h0 s i,
    MultiplyConstrDerivativeFl_zero fl h0 _ k (ctor_DConsVec_zero base config k hk), ?_, ?_⟩
  · rw [hsq]
    exact sumPV_sq_eq_zero_iff _ _ _
  · rw [hsq, hsq, MultiplyConstrDerivative_eq]
    simp only [id, sumPV_eq_sum_product]
    exact Finset.sum_mul_sq_le_sq_mul_sq _ _ _
/-- C20 fails as stated: in double precision, for the directions `2 ^ 27 + 1` and `2 ^ 27 - 1`
(one point, one variable, all doubles) the returned values are `2 ^ 54`, `2 ^ 54 + 2 ^ 28` and
`2 ^ 54 - 2 ^ 28`, so `MultiplyConstrDerivative(0, 1)^2` exceeds
`MultiplyConstrDerivative(0, 0) * MultiplyConstrDerivative(1, 1)`; and for the non-zero direction
`2 ^ (-600)` the square underflows and `MultiplyConstrDerivative(2, 2)` is `0`. -/
theorem C20_gram_counterexample :
    (binary64 (gramState.DConsVec 0 0 0) = gramState.DConsVec 0 0 0 ∧
     binary64 (gramState.DConsVec 1 0 0) = gramState.DConsVec 1 0 0 ∧
     binary64 (gramState.DConsVec 2 0 0) = gramState.DConsVec 2 0 0) ∧
    (MultiplyConstrDerivativeFl binary64 id gramState 0 1 = 2 ^ 54 ∧
     MultiplyConstrDerivativeFl binary64 id gramState 0 0 = 2 ^ 54 + 2 ^ 28 ∧
     MultiplyConstrDerivativeFl binary64 id gramState 1 1 = 2 ^ 54 - 2 ^ 28 ∧
     ¬ (MultiplyConstrDerivativeFl binary64 id gramState 0 1 ^ 2
        ≤ MultiplyConstrDerivativeFl binary64 id gramState 0 0
          * MultiplyConstrDerivativeFl binary64 id gramState 1 1)) ∧
    (MultiplyConstrDerivativeFl binary64 id gramState 2 2 = 0 ∧
     gramState.DConsVec 2 0 0 ≠ 0) := by
  have d0 : gramState.DConsVec 0 0 0 = 2 ^ 27 + 1 := by
    simp only [gramState, ↓reduceIte]
  have d1 : gramState.DConsVec 1 0 0 = 2 ^ 27 - 1 := by
    simp only [gramState, one_ne_zero, ↓reduceIte]
  have d2 : gramState.DConsVec 2 0 0 = 2 ^ (-600 : ℤ) := by
    simp only [gramState, OfNat.ofNat_ne_zero, OfNat.ofNat_ne_one, ↓reduceIte]
  have eM : ∀ a b : Nat, MultiplyConstrDerivativeFl binary64 id gramState a b
      = binary64 (0.0 + binary64 (gramState.DConsVec a 0 0 * gramState.DConsVec b 0 0)) :=
    fun _ _ => rfl
  have e01 := eM 0 1
  have e00 := eM 0 0
  have e11 := eM 1 1
  have e22 := eM 2 2
  rw [d0, d1] at e01
  rw [d0] at e00
  rw [d1] at e11
  rw [d2] at e22
  have p01 : ((2 : ℚ) ^ 27 + 1) * (2 ^ 27 - 1) = 2 ^ 54 - 1 := by norm_num
  have p00 : ((2 : ℚ) ^ 27 + 1) * (2 ^ 27 + 1) = 2 ^ 54 + 2 ^ 28 + 1 := by norm_num
  have p11 : ((2 : ℚ) ^ 27 - 1) * (2 ^ 27 - 1) = 2 ^ 54 - 2 ^ 28 + 1 := by norm_num
  have v01 : MultiplyConstrDerivativeFl binary64 id gramState 0 1 = 2 ^ 54 := by
    rw [e01, p01, binary64_two_pow_54_sub_one, lit_zero, zero_add, binary64_two_pow_54]
  have v00 : MultiplyConstrDerivativeFl binary64 id gramState 0 0 = 2 ^ 54 + 2 ^ 28 := by
    rw [e00, p00, binary64_sq_plus, lit_zero, zero_add, binary64_plus]
  have v11 : MultiplyConstrDerivativeFl binary64 id gramState 1 1 = 2 ^ 54 - 2 ^ 28 := by
    rw [e11, p11, binary64_sq_minus, lit_zero, zero_add, binary64_minus]
  have v22 : MultiplyConstrDerivativeFl binary64 id gramState 2 2 = 0 := by
    rw [e22, binary64_tiny_sq, lit_zero, zero_add, binary64_zero]
  refine ⟨⟨?_, ?_, ?_⟩, ⟨v01, v00, v11, ?_⟩, v22, ?_⟩
  · rw [d0]; exact binary64_dir_plus
  · rw [d1]; exact binary64_dir_minus
  · rw [d2]; exact binary64_tiny
  · rw [v01, v00, v11]
    norm_num
  · rw [d2]
    positivity

/-- Witness of C20 (amended) with the rounding of double precision, at the solver constructed
over the sample solver, constraint index 1. -/
theorem C20_gram_rounded_witness :
    1 < (sampleConfig ℚ).GetnConstr ∧ binary64 0 = 0 ∧ (∀ x : ℚ, 0 ≤ x → 0 ≤ binary64 x) ∧
    MultiplyConstrDerivativeFl binary64 id (ctor (sample ℚ) (sampleConfig ℚ)) 1 1 = 0 ∧
    0 ≤ MultiplyConstrDerivativeFl binary64 id (sample ℚ) 0 0 :=
  have hnn : ∀ x : ℚ, 0 ≤ x → 0 ≤ binary64 x := fun _ hx => binary64_nonneg hx
  have h := C20_gram_rounded binary64 (sample ℚ) 0 1 (sample ℚ) (sampleConfig ℚ) 1 (by decide)
    binary64_zero hnn
  ⟨by decide, binary64_zero, hnn, h.2.2.1, h.1⟩

/-- C19 fails as stated: the claim does not ask for a single process.  At the sample solver
with both Delta slots `3` times the DeltaStore slots and a primal DeltaStore norm of `25`, in a
run where the other processes contribute `1` to every global sum, `CalculateRhoTheta` sets theta
to `sqrt(1/26)`, not to `1e-9`. -/
theorem C19_uniform_scaling_counterexample :
    normDeltaOld (sampleScaled ℝ) ≠ 0 ∧
    (∀ p v, p < (sampleScaled ℝ).nPointDomain → v < (sampleScaled ℝ).nVar →
      (sampleScaled ℝ).direct_nodes.Solution_Delta p v
        = 3 * (sampleScaled ℝ).direct_nodes.Solution_DeltaStore p v ∧
      (sampleScaled ℝ).nodes.Solution_Delta p v
        = 3 * (sampleScaled ℝ).nodes.Solution_DeltaStore p v) ∧
    (CalculateRhoTheta (sumWithOne ℝ) Real.sqrt (sampleScaled ℝ)).theta = Real.sqrt (1 / 26) ∧
    (CalculateRhoTheta (sumWithOne ℝ) Real.sqrt (sampleScaled ℝ)).theta ≠ 1e-9 := by
  have h0 : normDeltaOld (sampleScaled ℝ) = 25 := by
    norm_num [normDeltaOld, sumPV, sampleScaled, sample, Finset.sum_range_succ]
  have hH : helperSum (sampleScaled ℝ) = 0 := by
    norm_num [helperSum, sumPV, sampleScaled, sample, Finset.sum_range_succ]
  have b1 : (1e-9 : ℝ) < Real.sqrt (1 / 26) := (Real.lt_sqrt (by norm_num)).mpr (by norm_num)
  have b2 : Real.sqrt (1 / 26) < 1 := (Real.sqrt_lt' one_pos).mpr (by norm_num)
  have ht : (CalculateRhoTheta (sumWithOne ℝ) Real.sqrt (sampleScaled ℝ)).theta
      = Real.sqrt (1 / 26) := by
    rw [CalculateRhoTheta_theta, h0, hH]
    have e : |sumWithOne ℝ 0| / sumWithOne ℝ 25 = 1 / 26 := by norm_num [sumWithOne]
    rw [e, max_eq_left (le_of_lt b1), min_eq_left (le_of_lt b2)]
  refine ⟨by rw [h0]; norm_num, fun _ _ _ _ => ⟨rfl, rfl⟩, ht, ?_⟩
  rw [ht]
  exact ne_of_gt b1

end OneShot
